import Mathlib

/-!
Verification development for the HTML→EPUB packaging core
(`src/nodes/HtmlToEpubNode/HtmlToEpubNode.node.ts`).

The TypeScript source is shallowly embedded: byte buffers become `List Nat`
(each element a byte value `< 256`), JavaScript 32-bit unsigned arithmetic
becomes `Nat` arithmetic with explicit `% 2^32` / `% 2^16` reductions at the
points where the source applies `>>> 0` or writes into fixed-width header
fields, and the external raw-DEFLATE compressor (`zlib.deflateRawSync`) is an
abstract parameter `deflate : List Nat → List Nat`, exactly as the design
treats it (a trusted pure `bytes → bytes` transform).
-/

/-! ## Byte-level primitives

`Buffer.writeUInt16LE` / `Buffer.writeUInt32LE` store values little-endian.
The ZIP writer in the source always materialises a header as one contiguous
allocation filled left-to-right, so a header is modelled as the concatenation
of its little-endian encoded fields.  The encoders reduce the stored value
modulo the field width, matching the `>>> 0` wrap the source applies to
32-bit values (all 16-bit values written by this program are in range). -/

/-- Little-endian encoding of the low 16 bits of `v` (two bytes). -/
def writeU16 (v : Nat) : List Nat := [v % 256, v / 256 % 256]

/-- Little-endian encoding of the low 32 bits of `v` (four bytes). -/
def writeU32 (v : Nat) : List Nat :=
  [v % 256, v / 256 % 256, v / 65536 % 256, v / 16777216 % 256]

/-- The byte at position `p` of a byte list (0 past the end). -/
def byteAt : List Nat → Nat → Nat
  | [], _ => 0
  | b :: _, 0 => b
  | _ :: l, p + 1 => byteAt l p

/-- Read a little-endian 16-bit value at position `p`,
as a ZIP reader would when parsing a header field. -/
def readU16 (l : List Nat) (p : Nat) : Nat :=
  byteAt l p + 256 * byteAt l (p + 1)

/-- Read a little-endian 32-bit value at position `p`. -/
def readU32 (l : List Nat) (p : Nat) : Nat :=
  byteAt l p + 256 * byteAt l (p + 1) + 65536 * byteAt l (p + 2) +
    16777216 * byteAt l (p + 3)

/-- UTF-8 encoding of one character (model of Node's UTF-8 encoder). -/
def charUtf8 (c : Char) : List Nat :=
  let n := c.toNat
  if n < 128 then [n]
  else if n < 2048 then [192 + n / 64, 128 + n % 64]
  else if n < 65536 then [224 + n / 4096, 128 + n / 64 % 64, 128 + n % 64]
  else [240 + n / 262144, 128 + n / 4096 % 64, 128 + n / 64 % 64, 128 + n % 64]

/-- UTF-8 bytes of a string: model of `Buffer.from(s, 'utf8')`. -/
def utf8Bytes (s : String) : List Nat := (s.data.map charUtf8).flatten

/-! ## CRC32 engine (source lines 53–67)

```
const CRC_TABLE = (() => { const table = new Uint32Array(256);
  for (let n = 0; n < 256; n++) { let c = n;
    for (let k = 0; k < 8; k++) c = (c & 1) ? (0xedb88320 ^ (c >>> 1)) : (c >>> 1);
    table[n] = c >>> 0; } return table; })();
function crc32(buf) { let c = 0 ^ -1;
  for (let i = 0; i < buf.length; i++) c = (c >>> 8) ^ CRC_TABLE[(c ^ buf[i]) & 0xff];
  return (c ^ -1) >>> 0; }
```

JavaScript's `0 ^ -1` seeds the accumulator with the 32-bit pattern of `-1`,
i.e. `0xFFFFFFFF` read unsigned; `c >>> 8` is an unsigned shift and the final
`(c ^ -1) >>> 0` complements the low 32 bits.  With the accumulator kept as a
`Nat < 2^32` these are `/ 256` and `^^^ 0xFFFFFFFF`. -/

/-- The reflected CRC-32 polynomial used by the source, `0xedb88320`. -/
def crcPoly : Nat := 0xedb88320

/-- One round of the table-generation inner loop:
`c = (c & 1) ? (0xedb88320 ^ (c >>> 1)) : (c >>> 1)`. -/
def crcStep (c : Nat) : Nat :=
  if c % 2 = 1 then crcPoly ^^^ c / 2 else c / 2

/-- Entry `n` of the CRC table: eight rounds of `crcStep` starting from `n`. -/
def crcEntry (n : Nat) : Nat := crcStep^[8] n

/-- The 256-entry CRC table, `CRC_TABLE` in the source. -/
def CRC_TABLE : List Nat := (List.range 256).map crcEntry

/-- `crc32` from the source: table-driven, seeded with all-ones,
complemented at the end. -/
def crc32 (buf : List Nat) : Nat :=
  (buf.foldl (fun c b => CRC_TABLE.getD ((c ^^^ b) % 256) 0 ^^^ c / 256)
      0xffffffff) ^^^ 0xffffffff

/-- The standard reflected CRC-32, written without a lookup table, exactly as
the specification describes it: accumulator initialised to all-ones, each
input byte XORed into the low eight bits and followed by eight reflected
polynomial-division rounds, complement at the end. -/
def crc32Bitwise (buf : List Nat) : Nat :=
  (buf.foldl (fun c b => crcStep^[8] (c ^^^ b)) 0xffffffff) ^^^ 0xffffffff

example : crc32 [] = 0 := by decide

example : crc32 (utf8Bytes "123456789") = 0xCBF43926 := by decide

/-! ## Equivalence of the table-driven CRC with the bitwise standard -/

/-- `crcStep` written as an XOR of the shifted value and a parity-selected
polynomial term. -/
theorem crcStep_eq (t : Nat) :
    crcStep t = (if t % 2 = 1 then crcPoly else 0) ^^^ t / 2 := by
  unfold crcStep
  rcases Nat.mod_two_eq_zero_or_one t with h | h <;> simp [h]

/-- Left commutativity of XOR on naturals, used for AC rewriting. -/
theorem xorLeftComm (a b c : Nat) : a ^^^ (b ^^^ c) = b ^^^ (a ^^^ c) := by
  rw [← Nat.xor_assoc, Nat.xor_comm a b, Nat.xor_assoc]

/-- The polynomial-division round is linear over XOR. -/
theorem crcStep_xor (a b : Nat) :
    crcStep (a ^^^ b) = crcStep a ^^^ crcStep b := by
  rw [crcStep_eq, crcStep_eq, crcStep_eq, Nat.xor_div_two]
  rcases Nat.mod_two_eq_zero_or_one a with ha | ha <;>
    rcases Nat.mod_two_eq_zero_or_one b with hb | hb
  · have hab : (a ^^^ b) % 2 = 0 := by
      rcases Nat.mod_two_eq_zero_or_one (a ^^^ b) with h | h
      · exact h
      · exact absurd (Nat.xor_mod_two_eq_one.mp h) (by simp [ha, hb])
    simp [ha, hb, hab]
  · have hab : (a ^^^ b) % 2 = 1 := Nat.xor_mod_two_eq_one.mpr (by simp [ha, hb])
    simp [ha, hb, hab, Nat.xor_assoc, Nat.xor_comm, xorLeftComm]
  · have hab : (a ^^^ b) % 2 = 1 := Nat.xor_mod_two_eq_one.mpr (by simp [ha, hb])
    simp [ha, hb, hab, Nat.xor_assoc, Nat.xor_comm, xorLeftComm]
  · have hab : (a ^^^ b) % 2 = 0 := by
      rcases Nat.mod_two_eq_zero_or_one (a ^^^ b) with h | h
      · exact h
      · exact absurd (Nat.xor_mod_two_eq_one.mp h) (by simp [ha, hb])
    simp [ha, hb, hab, Nat.xor_assoc, Nat.xor_comm, xorLeftComm,
      Nat.xor_cancel_left, Nat.xor_self, Nat.zero_xor]

/-- Iterated rounds stay linear over XOR. -/
theorem crcStep_iterate_xor (k a b : Nat) :
    crcStep^[k] (a ^^^ b) = crcStep^[k] a ^^^ crcStep^[k] b := by
  induction k generalizing a b with
  | zero => simp
  | succ k ih =>
    simp only [Function.iterate_succ_apply, crcStep_xor, ih]

/-- Division by a power of two distributes over XOR. -/
theorem xor_div_pow_two (k a b : Nat) :
    (a ^^^ b) / 2 ^ k = a / 2 ^ k ^^^ b / 2 ^ k := by
  induction k generalizing a b with
  | zero => simp
  | succ k ih =>
    have h2 : (2 : Nat) ^ (k + 1) = 2 ^ k * 2 := by ring
    simp only [h2, ← Nat.div_div_eq_div_mul, ih, Nat.xor_div_two]

/-- Processing `k` rounds acts on the low `k` bits through the rounds and on
the remaining high bits as a plain shift. -/
theorem crcStep_iterate_split (k : Nat) : ∀ t : Nat,
    crcStep^[k] t = crcStep^[k] (t % 2 ^ k) ^^^ t / 2 ^ k := by
  induction k with
  | zero => intro t; simp [Nat.mod_one]
  | succ k ih =>
    intro t
    have hmod2 : t % 2 ^ (k + 1) % 2 = t % 2 := by
      exact Nat.mod_mod_of_dvd t ⟨2 ^ k, by ring⟩
    have hdiv : t % 2 ^ (k + 1) / 2 = t / 2 % 2 ^ k := by
      have h2 : (2 : Nat) ^ (k + 1) = 2 * 2 ^ k := by ring
      rw [h2, Nat.mod_mul_right_div_self]
    have hdd : t / 2 / 2 ^ k = t / 2 ^ (k + 1) := by
      rw [Nat.div_div_eq_div_mul]; ring_nf
    calc crcStep^[k + 1] t
        = crcStep^[k] (crcStep t) := Function.iterate_succ_apply crcStep k t
      _ = crcStep^[k] ((if t % 2 = 1 then crcPoly else 0) ^^^ t / 2) := by
          rw [crcStep_eq]
      _ = crcStep^[k] (if t % 2 = 1 then crcPoly else 0) ^^^ crcStep^[k] (t / 2) := by
          rw [crcStep_iterate_xor]
      _ = crcStep^[k] (if t % 2 = 1 then crcPoly else 0) ^^^
            (crcStep^[k] (t / 2 % 2 ^ k) ^^^ t / 2 / 2 ^ k) := by rw [← ih]
      _ = (crcStep^[k] (if t % 2 = 1 then crcPoly else 0) ^^^
            crcStep^[k] (t / 2 % 2 ^ k)) ^^^ t / 2 ^ (k + 1) := by
          rw [Nat.xor_assoc, hdd]
      _ = crcStep^[k] ((if t % 2 = 1 then crcPoly else 0) ^^^ t / 2 % 2 ^ k) ^^^
            t / 2 ^ (k + 1) := by rw [crcStep_iterate_xor]
      _ = crcStep^[k] (crcStep (t % 2 ^ (k + 1))) ^^^ t / 2 ^ (k + 1) := by
          rw [crcStep_eq, hmod2, hdiv]
      _ = crcStep^[k + 1] (t % 2 ^ (k + 1)) ^^^ t / 2 ^ (k + 1) := by
          rw [Function.iterate_succ_apply]

/-- The table holds exactly the eight-round results. -/
theorem CRC_TABLE_getD (m : Nat) (h : m < 256) :
    CRC_TABLE.getD m 0 = crcEntry m := by
  simp [CRC_TABLE, List.getD_eq_getElem?_getD, List.getElem?_map,
    List.getElem?_range h]

/-- One byte of the table-driven update agrees with eight bitwise rounds. -/
theorem crc_update_byte (c b : Nat) (hb : b < 256) :
    CRC_TABLE.getD ((c ^^^ b) % 256 ) 0 ^^^ c / 256 = crcStep^[8] (c ^^^ b) := by
  have hsplit := crcStep_iterate_split 8 (c ^^^ b)
  have h256 : (2 : Nat) ^ 8 = 256 := by norm_num
  have hdiv : (c ^^^ b) / 256 = c / 256 := by
    have := xor_div_pow_two 8 c b
    rw [h256] at this
    rw [this, Nat.div_eq_of_lt hb, Nat.xor_zero]
  rw [h256] at hsplit
  rw [hsplit, CRC_TABLE_getD _ (Nat.mod_lt _ (by norm_num)), crcEntry, hdiv]

/-- Fold-level agreement of the two CRC formulations. -/
theorem crc_fold_eq (buf : List Nat) : ∀ c : Nat, (∀ b ∈ buf, b < 256) →
    buf.foldl (fun c b => CRC_TABLE.getD ((c ^^^ b) % 256) 0 ^^^ c / 256) c =
      buf.foldl (fun c b => crcStep^[8] (c ^^^ b)) c := by
  induction buf with
  | nil => intro c _; rfl
  | cons b rest ih =>
    intro c h
    have hb : b < 256 := h b (List.mem_cons_self b rest)
    simp only [List.foldl_cons]
    rw [crc_update_byte c b hb]
    exact ih _ (fun x hx => h x (List.mem_cons_of_mem b hx))

/-- The source's table-driven `crc32` computes the standard reflected
CRC-32 on every byte sequence. -/
theorem crc32_eq_crc32Bitwise (buf : List Nat) (h : ∀ b ∈ buf, b < 256) :
    crc32 buf = crc32Bitwise buf := by
  unfold crc32 crc32Bitwise
  rw [crc_fold_eq buf 0xffffffff h]

/-! ## ZIP archive builder (source lines 69–171)

`ZipBuilder` keeps an ordered entry list, the bytes written so far (the
source stores them as a `Buffer[]` that is concatenated at the end; the model
keeps the flattened bytes) and the running offset cursor.  `deflateRawSync`
is an abstract pure parameter. -/

/-- UTC components of a `Date`, as read by `msDosDateTime`
(`month` is `getUTCMonth() + 1`, i.e. 1–12). -/
structure DateParts where
  year : Nat
  month : Nat
  day : Nat
  hours : Nat
  minutes : Nat
  seconds : Nat

/-- `msDosDateTime` (source lines 69–79): DOS-packed `(time, date)` pair.
The source's `year - 1980` is Nat subtraction here (years before 1980
underflow differently in JS, but no claim depends on them). -/
def msDosDateTime (d : DateParts) : Nat × Nat :=
  ((d.hours <<< 11) ||| (d.minutes <<< 5) ||| d.seconds / 2,
    ((d.year - 1980) <<< 9) ||| (d.month <<< 5) ||| d.day)

/-- One recorded archive entry (the element type of `ZipBuilder.files`). -/
structure ZipEntry where
  name : String
  crc : Nat
  comp : List Nat
  uncomp : Nat
  method : Nat
  time : Nat
  date : Nat
  offset : Nat
deriving DecidableEq, Inhabited

/-- The 30-byte local file header followed by the UTF-8 name bytes, exactly
the buffer assembled in `addFile` (source lines 103–116). -/
def localHeaderBytes (e : ZipEntry) : List Nat :=
  writeU32 0x04034b50 ++ writeU16 20 ++ writeU16 0x0800 ++ writeU16 e.method ++
    writeU16 e.time ++ writeU16 e.date ++ writeU32 e.crc ++
    writeU32 e.comp.length ++ writeU32 e.uncomp ++
    writeU16 (utf8Bytes e.name).length ++ writeU16 0 ++ utf8Bytes e.name

/-- The bytes `addFile` appends for one entry: local header, then the
(possibly compressed) payload. -/
def entryChunk (e : ZipEntry) : List Nat := localHeaderBytes e ++ e.comp

/-- The 46-byte central-directory header followed by the name bytes, exactly
the buffer assembled per entry in `build` (source lines 128–148). -/
def centralHeaderBytes (e : ZipEntry) : List Nat :=
  writeU32 0x02014b50 ++ writeU16 0x031E ++ writeU16 20 ++ writeU16 0x0800 ++
    writeU16 e.method ++ writeU16 e.time ++ writeU16 e.date ++ writeU32 e.crc ++
    writeU32 e.comp.length ++ writeU32 e.uncomp ++
    writeU16 (utf8Bytes e.name).length ++ writeU16 0 ++ writeU16 0 ++
    writeU16 0 ++ writeU16 0 ++ writeU32 0 ++ writeU32 e.offset ++
    utf8Bytes e.name

/-- The 22-byte end-of-central-directory record (source lines 156–165). -/
def eocdBytes (entryCount centralSize centralStart : Nat) : List Nat :=
  writeU32 0x06054b50 ++ writeU16 0 ++ writeU16 0 ++ writeU16 entryCount ++
    writeU16 entryCount ++ writeU32 centralSize ++ writeU32 centralStart ++
    writeU16 0

/-- The builder state: `files`, `chunks` (flattened) and `offset`
(source lines 81–94). -/
structure ZipBuilder where
  files : List ZipEntry
  chunks : List Nat
  offset : Nat
deriving DecidableEq, Inhabited

/-- A freshly constructed `new ZipBuilder()`. -/
def ZipBuilder.empty : ZipBuilder := ⟨[], [], 0⟩

/-- `addFile` (source lines 95–123).  `deflate` models `deflateRawSync`;
`time`/`date` are the DOS-packed stamps `msDosDateTime` produced for the
entry.  The CRC is computed over the uncompressed payload, the entry records
the current cursor as its offset, and header plus payload are appended. -/
def ZipBuilder.addFile (z : ZipBuilder) (deflate : List Nat → List Nat)
    (name : String) (data : List Nat) (compress : Bool) (time date : Nat) :
    ZipBuilder :=
  let crc := crc32 data
  let method := if compress then 8 else 0
  let comp := if compress then deflate data else data
  let e : ZipEntry :=
    { name := name, crc := crc, comp := comp, uncomp := data.length,
      method := method, time := time, date := date, offset := z.offset }
  { files := z.files ++ [e],
    chunks := z.chunks ++ entryChunk e,
    offset := z.offset + (localHeaderBytes e).length + comp.length }

/-- `build` (source lines 124–170): append every central-directory record in
insertion order, then the end record, and return the concatenated archive
buffer together with the mutated builder state. -/
def ZipBuilder.build (z : ZipBuilder) : List Nat × ZipBuilder :=
  let central := (z.files.map centralHeaderBytes).flatten
  let centralStart := z.offset
  let eocd := eocdBytes z.files.length central.length centralStart
  let chunks := z.chunks ++ central ++ eocd
  (chunks, { files := z.files, chunks := chunks,
             offset := z.offset + central.length + 22 })

/-- One queued `addFile` call: name, payload bytes, compress flag and the
DOS timestamp in effect for the call. -/
structure AddOp where
  name : String
  data : List Nat
  compress : Bool
  time : Nat
  date : Nat
deriving DecidableEq

/-- Run a sequence of `addFile` calls on a fresh builder. -/
def runOps (deflate : List Nat → List Nat) (ops : List AddOp) : ZipBuilder :=
  ops.foldl
    (fun z op => z.addFile deflate op.name op.data op.compress op.time op.date)
    ZipBuilder.empty

/-! ## Offset bookkeeping: the builder's slice invariant -/

/-- Total length of the first `i` blocks of a block list. -/
def sumLen (L : List (List Nat)) (i : Nat) : Nat :=
  ((L.take i).map List.length).sum

theorem sumLen_cons_succ (x : List Nat) (L : List (List Nat)) (i : Nat) :
    sumLen (x :: L) (i + 1) = x.length + sumLen L i := by
  simp [sumLen]

theorem sumLen_append_of_le (A B : List (List Nat)) (i : Nat)
    (h : i ≤ A.length) : sumLen (A ++ B) i = sumLen A i := by
  unfold sumLen
  rw [List.take_append_eq_append_take, Nat.sub_eq_zero_of_le h, List.take_zero,
    List.append_nil]

theorem sumLen_length (A : List (List Nat)) :
    sumLen A A.length = A.flatten.length := by
  simp [sumLen, List.take_of_length_le (Nat.le_refl _)]

/-- Dropping the combined length of the first `i` blocks exposes block `i`
at the head of the remaining bytes. -/
theorem flatten_slice_drop (L : List (List Nat)) (R : List Nat) :
    ∀ (i : Nat) (h : i < L.length),
    (L.flatten ++ R).drop (sumLen L i) =
      L.get ⟨i, h⟩ ++ ((L.drop (i + 1)).flatten ++ R) := by
  induction L with
  | nil => intro i h; exact absurd h (Nat.not_lt_zero i)
  | cons x L ih =>
    intro i h
    cases i with
    | zero =>
      simp [sumLen, List.append_assoc]
    | succ i =>
      have hx : (x :: L).flatten ++ R = x ++ (L.flatten ++ R) := by
        simp [List.append_assoc]
      rw [sumLen_cons_succ, hx, ← List.drop_drop, List.drop_left]
      exact ih i (Nat.lt_of_succ_lt_succ h)

/-- The builder invariant: the bytes written so far are exactly the entry
chunks of the recorded files in order, the cursor equals the byte count, and
every recorded offset is the total size of the chunks before it. -/
def ZipInv (z : ZipBuilder) : Prop :=
  z.chunks = (z.files.map entryChunk).flatten ∧
  z.offset = z.chunks.length ∧
  ∀ i (h : i < z.files.length),
    (z.files.get ⟨i, h⟩).offset = sumLen (z.files.map entryChunk) i

theorem zipInv_empty : ZipInv ZipBuilder.empty :=
  ⟨rfl, rfl, fun i h => absurd h (Nat.not_lt_zero i)⟩

theorem zipInv_addFile (z : ZipBuilder) (deflate : List Nat → List Nat)
    (name : String) (data : List Nat) (compress : Bool) (time date : Nat)
    (hz : ZipInv z) :
    ZipInv (z.addFile deflate name data compress time date) := by
  obtain ⟨hc, ho, hoffs⟩ := hz
  simp only [ZipBuilder.addFile]
  refine ⟨?_, ?_, ?_⟩
  · simp [hc, List.map_append, List.flatten_append]
  · simp [entryChunk, ho, Nat.add_assoc]
  · intro i h
    simp only [List.length_append, List.length_map, List.length_cons,
      List.length_nil] at h
    rcases Nat.lt_or_ge i z.files.length with hi | hi
    · simp only [List.get_eq_getElem]
      rw [List.getElem_append_left hi, List.map_append,
        sumLen_append_of_le _ _ i (by simpa using Nat.le_of_lt hi)]
      have hoff := hoffs i hi
      rw [List.get_eq_getElem] at hoff
      exact hoff
    · have hieq : i = z.files.length := by omega
      subst hieq
      simp only [List.get_eq_getElem]
      rw [List.getElem_concat_length _ _ _ rfl, List.map_append]
      have hlen : z.files.length = (z.files.map entryChunk).length := by simp
      rw [hlen, sumLen_append_of_le _ _ _ (Nat.le_refl _)]
      rw [sumLen_length]
      simp [ho, hc]

theorem zipInv_foldl (deflate : List Nat → List Nat) (ops : List AddOp) :
    ∀ z : ZipBuilder, ZipInv z →
      ZipInv (ops.foldl
        (fun z op =>
          z.addFile deflate op.name op.data op.compress op.time op.date) z) := by
  induction ops with
  | nil => intro z hz; exact hz
  | cons op rest ih =>
    intro z hz
    exact ih _ (zipInv_addFile z deflate op.name op.data op.compress
      op.time op.date hz)

theorem zipInv_runOps (deflate : List Nat → List Nat) (ops : List AddOp) :
    ZipInv (runOps deflate ops) :=
  zipInv_foldl deflate ops ZipBuilder.empty zipInv_empty

/-- The recorded file names are the submitted names, in insertion order. -/
theorem runOps_names_foldl (deflate : List Nat → List Nat) (ops : List AddOp) :
    ∀ z : ZipBuilder,
      ((ops.foldl
        (fun z op =>
          z.addFile deflate op.name op.data op.compress op.time op.date)
        z).files).map ZipEntry.name =
      z.files.map ZipEntry.name ++ ops.map AddOp.name := by
  induction ops with
  | nil => intro z; simp
  | cons op rest ih =>
    intro z
    rw [List.foldl_cons, ih]
    simp [ZipBuilder.addFile]

theorem runOps_names (deflate : List Nat → List Nat) (ops : List AddOp) :
    (runOps deflate ops).files.map ZipEntry.name = ops.map AddOp.name := by
  have h := runOps_names_foldl deflate ops ZipBuilder.empty
  simpa [ZipBuilder.empty] using h


/-! ## Reading header fields back out of the byte stream

To keep the definitional reductions cheap, each header-plus-tail byte list is
first rewritten into an explicit cons normal form; the parsing lemmas then
read single bytes off that spine. -/

theorem byteAt_drop : ∀ (p : Nat) (l : List Nat) (q : Nat),
    byteAt (l.drop p) q = byteAt l (p + q) := by
  intro p
  induction p with
  | zero => intro l q; simp [List.drop_zero, Nat.zero_add]
  | succ p ih =>
    intro l q
    cases l with
    | nil => rfl
    | cons c t =>
      show byteAt (t.drop p) q = byteAt (c :: t) (p + 1 + q)
      have harith : p + 1 + q = (p + q) + 1 := by omega
      rw [harith]
      exact ih t q

theorem readU32_add (l : List Nat) (p q : Nat) :
    readU32 (l.drop p) q = readU32 l (p + q) := by
  simp [readU32, byteAt_drop, Nat.add_assoc]

theorem readU16_add (l : List Nat) (p q : Nat) :
    readU16 (l.drop p) q = readU16 l (p + q) := by
  simp [readU16, byteAt_drop, Nat.add_assoc]

/-- Cons normal form of a local entry (header, name, payload) followed by
arbitrary further archive bytes. -/
def entryChunkN (e : ZipEntry) (rest : List Nat) : List Nat :=
  80 :: 75 :: 3 :: 4 :: 20 :: 0 :: 0 :: 8 ::
  (e.method % 256) :: (e.method / 256 % 256) ::
  (e.time % 256) :: (e.time / 256 % 256) ::
  (e.date % 256) :: (e.date / 256 % 256) ::
  (e.crc % 256) :: (e.crc / 256 % 256) :: (e.crc / 65536 % 256) ::
    (e.crc / 16777216 % 256) ::
  (e.comp.length % 256) :: (e.comp.length / 256 % 256) ::
    (e.comp.length / 65536 % 256) :: (e.comp.length / 16777216 % 256) ::
  (e.uncomp % 256) :: (e.uncomp / 256 % 256) :: (e.uncomp / 65536 % 256) ::
    (e.uncomp / 16777216 % 256) ::
  ((utf8Bytes e.name).length % 256) :: ((utf8Bytes e.name).length / 256 % 256) ::
    0 :: 0 ::
  (utf8Bytes e.name ++ (e.comp ++ rest))

theorem entryChunk_norm (e : ZipEntry) (rest : List Nat) :
    entryChunk e ++ rest = entryChunkN e rest := by
  simp [entryChunk, localHeaderBytes, writeU16, writeU32, entryChunkN]

/-- Cons normal form of a central-directory record followed by arbitrary
further archive bytes. -/
def centralRecordN (e : ZipEntry) (rest : List Nat) : List Nat :=
  80 :: 75 :: 1 :: 2 :: 30 :: 3 :: 20 :: 0 :: 0 :: 8 ::
  (e.method % 256) :: (e.method / 256 % 256) ::
  (e.time % 256) :: (e.time / 256 % 256) ::
  (e.date % 256) :: (e.date / 256 % 256) ::
  (e.crc % 256) :: (e.crc / 256 % 256) :: (e.crc / 65536 % 256) ::
    (e.crc / 16777216 % 256) ::
  (e.comp.length % 256) :: (e.comp.length / 256 % 256) ::
    (e.comp.length / 65536 % 256) :: (e.comp.length / 16777216 % 256) ::
  (e.uncomp % 256) :: (e.uncomp / 256 % 256) :: (e.uncomp / 65536 % 256) ::
    (e.uncomp / 16777216 % 256) ::
  ((utf8Bytes e.name).length % 256) :: ((utf8Bytes e.name).length / 256 % 256) ::
    0 :: 0 :: 0 :: 0 :: 0 :: 0 :: 0 :: 0 :: 0 :: 0 :: 0 :: 0 ::
  (e.offset % 256) :: (e.offset / 256 % 256) :: (e.offset / 65536 % 256) ::
    (e.offset / 16777216 % 256) ::
  (utf8Bytes e.name ++ rest)

theorem centralRecord_norm (e : ZipEntry) (rest : List Nat) :
    centralHeaderBytes e ++ rest = centralRecordN e rest := by
  simp [centralHeaderBytes, writeU16, writeU32, centralRecordN]

theorem local_sig (e : ZipEntry) (rest : List Nat) :
    readU32 (entryChunk e ++ rest) 0 = 0x04034b50 := by
  rw [entryChunk_norm]
  have h : readU32 (entryChunkN e rest) 0 =
      80 + 256 * 75 + 65536 * 3 + 16777216 * 4 := rfl
  rw [h]

theorem local_crc (e : ZipEntry) (rest : List Nat) :
    readU32 (entryChunk e ++ rest) 14 = e.crc % 4294967296 := by
  rw [entryChunk_norm]
  have h : readU32 (entryChunkN e rest) 14 =
      e.crc % 256 + 256 * (e.crc / 256 % 256) + 65536 * (e.crc / 65536 % 256) +
        16777216 * (e.crc / 16777216 % 256) := rfl
  omega

theorem local_compSize (e : ZipEntry) (rest : List Nat) :
    readU32 (entryChunk e ++ rest) 18 = e.comp.length % 4294967296 := by
  rw [entryChunk_norm]
  have h : readU32 (entryChunkN e rest) 18 =
      e.comp.length % 256 + 256 * (e.comp.length / 256 % 256) +
        65536 * (e.comp.length / 65536 % 256) +
        16777216 * (e.comp.length / 16777216 % 256) := rfl
  omega

theorem local_uncompSize (e : ZipEntry) (rest : List Nat) :
    readU32 (entryChunk e ++ rest) 22 = e.uncomp % 4294967296 := by
  rw [entryChunk_norm]
  have h : readU32 (entryChunkN e rest) 22 =
      e.uncomp % 256 + 256 * (e.uncomp / 256 % 256) +
        65536 * (e.uncomp / 65536 % 256) +
        16777216 * (e.uncomp / 16777216 % 256) := rfl
  omega

theorem local_nameLen (e : ZipEntry) (rest : List Nat) :
    readU16 (entryChunk e ++ rest) 26 = (utf8Bytes e.name).length % 65536 := by
  rw [entryChunk_norm]
  have h : readU16 (entryChunkN e rest) 26 =
      (utf8Bytes e.name).length % 256 +
        256 * ((utf8Bytes e.name).length / 256 % 256) := rfl
  omega

theorem local_nameBytes (e : ZipEntry) (rest : List Nat) :
    (entryChunk e ++ rest).drop 30 = utf8Bytes e.name ++ (e.comp ++ rest) := by
  rw [entryChunk_norm]
  rfl

theorem central_sig (e : ZipEntry) (rest : List Nat) :
    readU32 (centralHeaderBytes e ++ rest) 0 = 0x02014b50 := by
  rw [centralRecord_norm]
  have h : readU32 (centralRecordN e rest) 0 =
      80 + 256 * 75 + 65536 * 1 + 16777216 * 2 := rfl
  rw [h]

theorem central_crc (e : ZipEntry) (rest : List Nat) :
    readU32 (centralHeaderBytes e ++ rest) 16 = e.crc % 4294967296 := by
  rw [centralRecord_norm]
  have h : readU32 (centralRecordN e rest) 16 =
      e.crc % 256 + 256 * (e.crc / 256 % 256) + 65536 * (e.crc / 65536 % 256) +
        16777216 * (e.crc / 16777216 % 256) := rfl
  omega

theorem central_compSize (e : ZipEntry) (rest : List Nat) :
    readU32 (centralHeaderBytes e ++ rest) 20 = e.comp.length % 4294967296 := by
  rw [centralRecord_norm]
  have h : readU32 (centralRecordN e rest) 20 =
      e.comp.length % 256 + 256 * (e.comp.length / 256 % 256) +
        65536 * (e.comp.length / 65536 % 256) +
        16777216 * (e.comp.length / 16777216 % 256) := rfl
  omega

theorem central_uncompSize (e : ZipEntry) (rest : List Nat) :
    readU32 (centralHeaderBytes e ++ rest) 24 = e.uncomp % 4294967296 := by
  rw [centralRecord_norm]
  have h : readU32 (centralRecordN e rest) 24 =
      e.uncomp % 256 + 256 * (e.uncomp / 256 % 256) +
        65536 * (e.uncomp / 65536 % 256) +
        16777216 * (e.uncomp / 16777216 % 256) := rfl
  omega

theorem central_nameLen (e : ZipEntry) (rest : List Nat) :
    readU16 (centralHeaderBytes e ++ rest) 28 =
      (utf8Bytes e.name).length % 65536 := by
  rw [centralRecord_norm]
  have h : readU16 (centralRecordN e rest) 28 =
      (utf8Bytes e.name).length % 256 +
        256 * ((utf8Bytes e.name).length / 256 % 256) := rfl
  omega

theorem central_offsetField (e : ZipEntry) (rest : List Nat) :
    readU32 (centralHeaderBytes e ++ rest) 42 = e.offset % 4294967296 := by
  rw [centralRecord_norm]
  have h : readU32 (centralRecordN e rest) 42 =
      e.offset % 256 + 256 * (e.offset / 256 % 256) +
        65536 * (e.offset / 65536 % 256) +
        16777216 * (e.offset / 16777216 % 256) := rfl
  omega

theorem central_nameBytes (e : ZipEntry) (rest : List Nat) :
    (centralHeaderBytes e ++ rest).drop 46 = utf8Bytes e.name ++ rest := by
  rw [centralRecord_norm]
  rfl

/-! ## Locating every header inside the finished archive -/

theorem sumLen_le_flatten (L : List (List Nat)) (i : Nat) :
    sumLen L i ≤ L.flatten.length := by
  conv_rhs => rw [← List.take_append_drop i L]
  rw [List.flatten_append, List.length_append]
  have h : sumLen L i = ((L.take i).flatten).length := by
    simp [sumLen]
  omega

/-- The finished buffer, decomposed as local region, central region and end
record. -/
theorem build_buffer_decomp (z : ZipBuilder) (hz : ZipInv z) :
    z.build.1 =
      (z.files.map entryChunk).flatten ++
        ((z.files.map centralHeaderBytes).flatten ++
          eocdBytes z.files.length
            ((z.files.map centralHeaderBytes).flatten).length z.offset) := by
  obtain ⟨hc, _, _⟩ := hz
  simp [ZipBuilder.build, hc, List.append_assoc]

/-- The local entry chunk of file `i` starts exactly at its recorded offset. -/
theorem build_local_slice (z : ZipBuilder) (hz : ZipInv z) (i : Nat)
    (hi : i < z.files.length) :
    ∃ tail, (z.build.1).drop ((z.files.get ⟨i, hi⟩).offset) =
      entryChunk (z.files.get ⟨i, hi⟩) ++ tail := by
  have hiL : i < (z.files.map entryChunk).length := by simpa using hi
  obtain ⟨hc, ho, hoffs⟩ := hz
  rw [build_buffer_decomp z ⟨hc, ho, hoffs⟩, hoffs i hi]
  rw [flatten_slice_drop (z.files.map entryChunk)
    ((z.files.map centralHeaderBytes).flatten ++
      eocdBytes z.files.length
        ((z.files.map centralHeaderBytes).flatten).length z.offset) i hiL]
  exact ⟨((z.files.map entryChunk).drop (i + 1)).flatten ++
      ((z.files.map centralHeaderBytes).flatten ++
        eocdBytes z.files.length
          ((z.files.map centralHeaderBytes).flatten).length z.offset),
    by congr 1; simp [List.get_eq_getElem]⟩

/-- Central record `i` starts at the central region plus the lengths of the
records before it. -/
theorem build_central_slice (z : ZipBuilder) (hz : ZipInv z) (i : Nat)
    (hi : i < z.files.length) :
    ∃ tail, (z.build.1).drop
        (z.chunks.length + sumLen (z.files.map centralHeaderBytes) i) =
      centralHeaderBytes (z.files.get ⟨i, hi⟩) ++ tail := by
  have hiC : i < (z.files.map centralHeaderBytes).length := by simpa using hi
  obtain ⟨hc, ho, hoffs⟩ := hz
  have hdecomp := build_buffer_decomp z ⟨hc, ho, hoffs⟩
  have hchunks : z.chunks.length = ((z.files.map entryChunk).flatten).length := by
    rw [hc]
  rw [hdecomp, ← List.drop_drop, hchunks, List.drop_left]
  rw [flatten_slice_drop (z.files.map centralHeaderBytes)
    (eocdBytes z.files.length
      ((z.files.map centralHeaderBytes).flatten).length z.offset) i hiC]
  exact ⟨((z.files.map centralHeaderBytes).drop (i + 1)).flatten ++
      eocdBytes z.files.length
        ((z.files.map centralHeaderBytes).flatten).length z.offset,
    by congr 1; simp [List.get_eq_getElem]⟩

/-- After the local region, the buffer holds exactly the central-directory
records of the recorded files, in order, followed by the end record. -/
theorem build_central_region (z : ZipBuilder) (hz : ZipInv z) :
    (z.build.1).drop z.chunks.length =
      (z.files.map centralHeaderBytes).flatten ++
        eocdBytes z.files.length
          ((z.files.map centralHeaderBytes).flatten).length z.offset := by
  obtain ⟨hc, ho, hoffs⟩ := hz
  have hchunks : z.chunks.length = ((z.files.map entryChunk).flatten).length := by
    rw [hc]
  rw [build_buffer_decomp z ⟨hc, ho, hoffs⟩, hchunks, List.drop_left]

/-- Per-entry agreement of parsed local-header fields with the matching
central-directory record, for any builder satisfying the invariant. -/
theorem zip_header_agree_aux (z : ZipBuilder) (hz : ZipInv z) (i : Nat)
    (hi : i < z.files.length)
    (hnm : (utf8Bytes (z.files.get ⟨i, hi⟩).name).length < 65536)
    (hoffb : (z.files.get ⟨i, hi⟩).offset < 4294967296) :
    readU32 z.build.1
        (z.chunks.length + sumLen (z.files.map centralHeaderBytes) i + 42) =
      (z.files.get ⟨i, hi⟩).offset ∧
    readU32 z.build.1 (z.files.get ⟨i, hi⟩).offset = 0x04034b50 ∧
    readU32 z.build.1 ((z.files.get ⟨i, hi⟩).offset + 14) =
      readU32 z.build.1
        (z.chunks.length + sumLen (z.files.map centralHeaderBytes) i + 16) ∧
    readU32 z.build.1 ((z.files.get ⟨i, hi⟩).offset + 14) =
      (z.files.get ⟨i, hi⟩).crc % 4294967296 ∧
    readU32 z.build.1 ((z.files.get ⟨i, hi⟩).offset + 18) =
      readU32 z.build.1
        (z.chunks.length + sumLen (z.files.map centralHeaderBytes) i + 20) ∧
    readU32 z.build.1 ((z.files.get ⟨i, hi⟩).offset + 18) =
      (z.files.get ⟨i, hi⟩).comp.length % 4294967296 ∧
    readU32 z.build.1 ((z.files.get ⟨i, hi⟩).offset + 22) =
      readU32 z.build.1
        (z.chunks.length + sumLen (z.files.map centralHeaderBytes) i + 24) ∧
    readU32 z.build.1 ((z.files.get ⟨i, hi⟩).offset + 22) =
      (z.files.get ⟨i, hi⟩).uncomp % 4294967296 ∧
    readU16 z.build.1 ((z.files.get ⟨i, hi⟩).offset + 26) =
      readU16 z.build.1
        (z.chunks.length + sumLen (z.files.map centralHeaderBytes) i + 28) ∧
    (z.build.1.drop ((z.files.get ⟨i, hi⟩).offset + 30)).take
        (readU16 z.build.1 ((z.files.get ⟨i, hi⟩).offset + 26)) =
      utf8Bytes (z.files.get ⟨i, hi⟩).name ∧
    (z.build.1.drop
        (z.chunks.length + sumLen (z.files.map centralHeaderBytes) i + 46)).take
        (readU16 z.build.1
          (z.chunks.length + sumLen (z.files.map centralHeaderBytes) i + 28)) =
      utf8Bytes (z.files.get ⟨i, hi⟩).name := by
  obtain ⟨ltail, hlocal⟩ := build_local_slice z hz i hi
  obtain ⟨ctail, hcentral⟩ := build_central_slice z hz i hi
  have h42 : readU32 z.build.1
      (z.chunks.length + sumLen (z.files.map centralHeaderBytes) i + 42) =
      (z.files.get ⟨i, hi⟩).offset := by
    rw [← readU32_add, hcentral, central_offsetField, Nat.mod_eq_of_lt hoffb]
  have hsig : readU32 z.build.1 (z.files.get ⟨i, hi⟩).offset = 0x04034b50 := by
    have h0 := readU32_add z.build.1 (z.files.get ⟨i, hi⟩).offset 0
    rw [Nat.add_zero] at h0
    rw [← h0, hlocal, local_sig]
  have hl14 : readU32 z.build.1 ((z.files.get ⟨i, hi⟩).offset + 14) =
      (z.files.get ⟨i, hi⟩).crc % 4294967296 := by
    rw [← readU32_add, hlocal, local_crc]
  have hc16 : readU32 z.build.1
      (z.chunks.length + sumLen (z.files.map centralHeaderBytes) i + 16) =
      (z.files.get ⟨i, hi⟩).crc % 4294967296 := by
    rw [← readU32_add, hcentral, central_crc]
  have hl18 : readU32 z.build.1 ((z.files.get ⟨i, hi⟩).offset + 18) =
      (z.files.get ⟨i, hi⟩).comp.length % 4294967296 := by
    rw [← readU32_add, hlocal, local_compSize]
  have hc20 : readU32 z.build.1
      (z.chunks.length + sumLen (z.files.map centralHeaderBytes) i + 20) =
      (z.files.get ⟨i, hi⟩).comp.length % 4294967296 := by
    rw [← readU32_add, hcentral, central_compSize]
  have hl22 : readU32 z.build.1 ((z.files.get ⟨i, hi⟩).offset + 22) =
      (z.files.get ⟨i, hi⟩).uncomp % 4294967296 := by
    rw [← readU32_add, hlocal, local_uncompSize]
  have hc24 : readU32 z.build.1
      (z.chunks.length + sumLen (z.files.map centralHeaderBytes) i + 24) =
      (z.files.get ⟨i, hi⟩).uncomp % 4294967296 := by
    rw [← readU32_add, hcentral, central_uncompSize]
  have hl26 : readU16 z.build.1 ((z.files.get ⟨i, hi⟩).offset + 26) =
      (utf8Bytes (z.files.get ⟨i, hi⟩).name).length := by
    rw [← readU16_add, hlocal, local_nameLen, Nat.mod_eq_of_lt hnm]
  have hc28 : readU16 z.build.1
      (z.chunks.length + sumLen (z.files.map centralHeaderBytes) i + 28) =
      (utf8Bytes (z.files.get ⟨i, hi⟩).name).length := by
    rw [← readU16_add, hcentral, central_nameLen, Nat.mod_eq_of_lt hnm]
  have hlname : (z.build.1.drop ((z.files.get ⟨i, hi⟩).offset + 30)).take
      (readU16 z.build.1 ((z.files.get ⟨i, hi⟩).offset + 26)) =
      utf8Bytes (z.files.get ⟨i, hi⟩).name := by
    rw [hl26, ← List.drop_drop, hlocal, local_nameBytes, List.take_left' rfl]
  have hcname : (z.build.1.drop
      (z.chunks.length + sumLen (z.files.map centralHeaderBytes) i + 46)).take
      (readU16 z.build.1
        (z.chunks.length + sumLen (z.files.map centralHeaderBytes) i + 28)) =
      utf8Bytes (z.files.get ⟨i, hi⟩).name := by
    rw [hc28, ← List.drop_drop, hcentral, central_nameBytes, List.take_left' rfl]
  exact ⟨h42, hsig, by rw [hl14, hc16], hl14, by rw [hl18, hc20], hl18,
    by rw [hl22, hc24], hl22, by rw [hl26, hc28], hlname, hcname⟩

/-- C1: for every sequence of `addFile` calls followed by one `build`, the
local-entry region lists the entries in insertion order (their recorded names
are the submitted names in order), the central directory region is exactly
the central records of the same entries in the same order (followed by the
end record), and for every entry, parsing the local header found at the
offset recorded in its central-directory record reproduces the same crc,
compressed size, uncompressed size and name as that central record.  The
hypotheses only rule out inputs on which Node's `Buffer` writes would throw
or the 32-bit offset field would wrap (name over 65535 UTF-8 bytes, archive
over 4 GiB); the wrapped case is treated with C2. -/
theorem zip_build_order_and_agreement (deflate : List Nat → List Nat)
    (ops : List AddOp)
    (hname : ∀ op ∈ ops, (utf8Bytes op.name).length < 65536)
    (hfit : (runOps deflate ops).offset < 4294967296) :
    let z := runOps deflate ops
    let buf := z.build.1
    (z.files.map ZipEntry.name = ops.map AddOp.name) ∧
    (buf.drop z.chunks.length =
      (z.files.map centralHeaderBytes).flatten ++
        eocdBytes z.files.length
          ((z.files.map centralHeaderBytes).flatten).length z.offset) ∧
    ∀ i, ∀ hi : i < z.files.length,
      readU32 buf
          (z.chunks.length + sumLen (z.files.map centralHeaderBytes) i + 42) =
        (z.files.get ⟨i, hi⟩).offset ∧
      readU32 buf (z.files.get ⟨i, hi⟩).offset = 0x04034b50 ∧
      readU32 buf ((z.files.get ⟨i, hi⟩).offset + 14) =
        readU32 buf
          (z.chunks.length + sumLen (z.files.map centralHeaderBytes) i + 16) ∧
      readU32 buf ((z.files.get ⟨i, hi⟩).offset + 14) =
        (z.files.get ⟨i, hi⟩).crc % 4294967296 ∧
      readU32 buf ((z.files.get ⟨i, hi⟩).offset + 18) =
        readU32 buf
          (z.chunks.length + sumLen (z.files.map centralHeaderBytes) i + 20) ∧
      readU32 buf ((z.files.get ⟨i, hi⟩).offset + 18) =
        (z.files.get ⟨i, hi⟩).comp.length % 4294967296 ∧
      readU32 buf ((z.files.get ⟨i, hi⟩).offset + 22) =
        readU32 buf
          (z.chunks.length + sumLen (z.files.map centralHeaderBytes) i + 24) ∧
      readU32 buf ((z.files.get ⟨i, hi⟩).offset + 22) =
        (z.files.get ⟨i, hi⟩).uncomp % 4294967296 ∧
      readU16 buf ((z.files.get ⟨i, hi⟩).offset + 26) =
        readU16 buf
          (z.chunks.length + sumLen (z.files.map centralHeaderBytes) i + 28) ∧
      (buf.drop ((z.files.get ⟨i, hi⟩).offset + 30)).take
          (readU16 buf ((z.files.get ⟨i, hi⟩).offset + 26)) =
        utf8Bytes (z.files.get ⟨i, hi⟩).name ∧
      (buf.drop
          (z.chunks.length + sumLen (z.files.map centralHeaderBytes) i + 46)).take
          (readU16 buf
            (z.chunks.length + sumLen (z.files.map centralHeaderBytes) i + 28)) =
        utf8Bytes (z.files.get ⟨i, hi⟩).name := by
  intro z buf
  have hz := zipInv_runOps deflate ops
  refine ⟨runOps_names deflate ops, build_central_region _ hz, ?_⟩
  intro i hi
  have hi' : i < (runOps deflate ops).files.length := hi
  have hlen : (runOps deflate ops).files.length = ops.length := by
    have h := congrArg List.length (runOps_names deflate ops)
    simpa using h
  have hi2 : i < ops.length := hlen ▸ hi'
  have hnamei : ((runOps deflate ops).files.get ⟨i, hi'⟩).name =
      (ops.get ⟨i, hi2⟩).name := by
    have h1 : ((runOps deflate ops).files.map ZipEntry.name)[i]? =
        (ops.map AddOp.name)[i]? := by
      rw [runOps_names deflate ops]
    rw [List.getElem?_map, List.getElem?_map, List.getElem?_eq_getElem hi',
      List.getElem?_eq_getElem hi2] at h1
    simpa [List.get_eq_getElem] using h1
  have hnm : (utf8Bytes ((runOps deflate ops).files.get ⟨i, hi'⟩).name).length
      < 65536 := by
    rw [hnamei]
    refine hname _ ?_
    rw [List.get_eq_getElem]
    exact List.getElem_mem hi2
  have hoffb : ((runOps deflate ops).files.get ⟨i, hi'⟩).offset
      < 4294967296 := by
    obtain ⟨hc, ho, hoffs⟩ := hz
    have h1 := hoffs i hi'
    have h2 := sumLen_le_flatten ((runOps deflate ops).files.map entryChunk) i
    have h3 : (runOps deflate ops).chunks.length =
        ((runOps deflate ops).files.map entryChunk).flatten.length := by
      rw [hc]
    omega
  exact zip_header_agree_aux (runOps deflate ops) hz i hi' hnm hoffb

/-- Two small concrete `addFile` calls used to witness the builder theorems. -/
def sampleOps : List AddOp :=
  [⟨"a", [10, 20], false, 0, 33⟩, ⟨"bc", [7], false, 5, 33⟩]

/-- Witness for C1 at a concrete two-entry archive (with the identity
function standing in for the compressor, as the entries are stored). -/
theorem zip_build_order_and_agreement_witness :
    (∀ op ∈ sampleOps, (utf8Bytes op.name).length < 65536) ∧
    (runOps (fun l => l) sampleOps).offset < 4294967296 ∧
    (runOps (fun l => l) sampleOps).files.map ZipEntry.name =
      sampleOps.map AddOp.name := by
  refine ⟨by decide, by decide, ?_⟩
  have h := zip_build_order_and_agreement (fun l => l) sampleOps
    (by decide) (by decide)
  exact h.1

/-! ## Size-limit behaviour (C2) and post-build `addFile` (C3) -/

theorem localHeaderBytes_length (e : ZipEntry) :
    (localHeaderBytes e).length = 30 + (utf8Bytes e.name).length := by
  simp [localHeaderBytes, writeU16, writeU32]
  omega

theorem centralHeaderBytes_length (e : ZipEntry) :
    (centralHeaderBytes e).length = 46 + (utf8Bytes e.name).length := by
  simp [centralHeaderBytes, writeU16, writeU32]
  omega

/-- A 2^32-byte payload (never evaluated element by element; only its length
matters). -/
def bigPayload : List Nat := List.replicate 4294967296 0

theorem bigPayload_length : bigPayload.length = 4294967296 := by
  rw [bigPayload, List.length_replicate]

/-- A call sequence whose second entry's offset exceeds the unsigned 32-bit
range: the first stored payload is 2^32 bytes long. -/
def overflowOps : List AddOp :=
  [⟨"a", bigPayload, false, 0, 0⟩, ⟨"b", [], false, 0, 0⟩]

theorem addFile_offset (z : ZipBuilder) (deflate : List Nat → List Nat)
    (name : String) (data : List Nat) (compress : Bool) (t d : Nat) :
    (z.addFile deflate name data compress t d).offset =
      z.offset + (30 + (utf8Bytes name).length) +
        (if compress then deflate data else data).length := by
  simp only [ZipBuilder.addFile, localHeaderBytes_length]

theorem addFile_files (z : ZipBuilder) (deflate : List Nat → List Nat)
    (name : String) (data : List Nat) (compress : Bool) (t d : Nat) :
    (z.addFile deflate name data compress t d).files =
      z.files ++
        [{ name := name, crc := crc32 data,
           comp := if compress then deflate data else data,
           uncomp := data.length, method := if compress then 8 else 0,
           time := t, date := d, offset := z.offset }] := by
  simp only [ZipBuilder.addFile]

/-- The entry record `addFile` constructs for a call at offset `off`. -/
def mkEntry (deflate : List Nat → List Nat) (name : String) (data : List Nat)
    (compress : Bool) (t d off : Nat) : ZipEntry :=
  { name := name, crc := crc32 data,
    comp := if compress then deflate data else data,
    uncomp := data.length, method := if compress then 8 else 0,
    time := t, date := d, offset := off }

/-- Entry offsets of a two-call build of stored (uncompressed) entries,
fully symbolically. -/
theorem runOps_two_stored (deflate : List Nat → List Nat) (n1 : String)
    (d1 : List Nat) (t1 dt1 : Nat) (n2 : String) (d2 : List Nat)
    (t2 dt2 : Nat) :
    ∃ e1 e2 : ZipEntry,
      (runOps deflate [⟨n1, d1, false, t1, dt1⟩, ⟨n2, d2, false, t2, dt2⟩]).files
        = [e1, e2] ∧
      e1.offset = 0 ∧
      e2.offset = 30 + (utf8Bytes n1).length + d1.length := by
  have hrun : runOps deflate [⟨n1, d1, false, t1, dt1⟩, ⟨n2, d2, false, t2, dt2⟩] =
      (ZipBuilder.empty.addFile deflate n1 d1 false t1 dt1).addFile deflate
        n2 d2 false t2 dt2 := rfl
  refine ⟨mkEntry deflate n1 d1 false t1 dt1 0,
    mkEntry deflate n2 d2 false t2 dt2
      ((ZipBuilder.empty.addFile deflate n1 d1 false t1 dt1).offset),
    ?_, rfl, ?_⟩
  · rw [hrun, addFile_files, addFile_files]
    show ((ZipBuilder.empty.files ++ [_]) ++ [_] : List ZipEntry) = _
    rw [show ZipBuilder.empty.files = ([] : List ZipEntry) from rfl,
      List.nil_append, List.singleton_append]
    rfl
  · show (ZipBuilder.empty.addFile deflate n1 d1 false t1 dt1).offset = _
    rw [addFile_offset]
    show 0 + (30 + (utf8Bytes n1).length) + (if False then deflate d1 else d1).length = _
    rw [if_neg (fun h => h.elim)]
    omega

/-- Counterexample to C2: the builder accepts a build whose second entry
starts at byte offset 2^32 + 31; both `addFile` calls and `build` return
normally (they are total functions with no error path in the source), and
the offset stored in that entry's central-directory record is `31`, the true
offset reduced modulo 2^32 — a silent wrap, not a rejection. -/
theorem zip_overflow_silently_wraps :
    ∃ e1 e2 : ZipEntry,
      (runOps (fun l => l) overflowOps).files = [e1, e2] ∧
      e2.offset = 4294967327 ∧
      readU32 (centralHeaderBytes e2 ++ []) 42 = 31 ∧
      (31 : Nat) ≠ 4294967327 := by
  have hu : utf8Bytes "a" = [97] := rfl
  obtain ⟨e1, e2, hfiles, _, he2⟩ := runOps_two_stored (fun l => l)
    "a" bigPayload 0 0 "b" [] 0 0
  rw [hu, bigPayload_length] at he2
  have he2off : e2.offset = 4294967327 := by rw [he2]; simp
  exact ⟨e1, e2, hfiles, he2off,
    by rw [central_offsetField, he2off], by omega⟩

/-- C2 amended: the builder performs no size-limit detection at all.  Every
32-bit header field is written reduced modulo 2^32 — for in-range archives
this is the identity, and past 4 GiB the fields silently wrap (never an
error, as `addFile` and `build` are total). -/
theorem zip_fields_stored_mod_u32 (deflate : List Nat → List Nat)
    (ops : List AddOp) (i : Nat)
    (hi : i < (runOps deflate ops).files.length) :
    readU32 (entryChunk ((runOps deflate ops).files.get ⟨i, hi⟩) ++ []) 18 =
      ((runOps deflate ops).files.get ⟨i, hi⟩).comp.length % 4294967296 ∧
    readU32 (entryChunk ((runOps deflate ops).files.get ⟨i, hi⟩) ++ []) 22 =
      ((runOps deflate ops).files.get ⟨i, hi⟩).uncomp % 4294967296 ∧
    readU32 (centralHeaderBytes
        ((runOps deflate ops).files.get ⟨i, hi⟩) ++ []) 42 =
      ((runOps deflate ops).files.get ⟨i, hi⟩).offset % 4294967296 :=
  ⟨local_compSize _ _, local_uncompSize _ _, central_offsetField _ _⟩

theorem zip_fields_stored_mod_u32_witness :
    0 < (runOps (fun l => l) sampleOps).files.length ∧
    readU32 (centralHeaderBytes
        ((runOps (fun l => l) sampleOps).files.get ⟨0, by decide⟩) ++ []) 42 =
      ((runOps (fun l => l) sampleOps).files.get ⟨0, by decide⟩).offset %
        4294967296 :=
  ⟨by decide,
    (zip_fields_stored_mod_u32 (fun l => l) sampleOps 0 (by decide)).2.2⟩

/-- Counterexample to C3: after `build` has been called, a further `addFile`
on the same builder is not rejected — it runs normally and appends a second
recorded entry, whose local header lands at offset 101, i.e. after the
central directory and end record that `build` already wrote (the one-entry
archive occupies bytes 0–100). -/
theorem addFile_after_build_accepted :
    ((((runOps (fun l => l) [⟨"a", [1], false, 0, 0⟩]).build.2).addFile
        (fun l => l) "b" [2] false 0 0).files).length = 2 ∧
    ((((runOps (fun l => l) [⟨"a", [1], false, 0, 0⟩]).build.2).addFile
        (fun l => l) "b" [2] false 0 0).files).map ZipEntry.name =
      ["a", "b"] ∧
    ((((runOps (fun l => l) [⟨"a", [1], false, 0, 0⟩]).build.2).addFile
        (fun l => l) "b" [2] false 0 0).files.getD 1 default).offset = 101 ∧
    ((runOps (fun l => l) [⟨"a", [1], false, 0, 0⟩]).build.1).length = 101 := by
  refine ⟨?_, ?_, ?_, ?_⟩ <;> decide

/-- C3 amended: `build` is not terminal; a subsequent `addFile` call is
accepted and appends one more entry (whose recorded offset is the cursor
after the already-emitted central directory and end record) instead of
being rejected. -/
theorem build_then_addFile_appends (z : ZipBuilder)
    (deflate : List Nat → List Nat) (name : String) (data : List Nat)
    (compress : Bool) (t d : Nat) :
    ((z.build.2).addFile deflate name data compress t d).files =
      z.files ++
        [mkEntry deflate name data compress t d (z.build.2).offset] ∧
    ((z.build.2).addFile deflate name data compress t d).chunks.length =
      (z.build.2).chunks.length + (30 + (utf8Bytes name).length) +
        (if compress then deflate data else data).length := by
  constructor
  · rw [addFile_files]
    show (z.build.2).files ++ [_] = z.files ++ [_]
    simp only [ZipBuilder.build, mkEntry]
  · show ((z.build.2).chunks ++ entryChunk _).length = _
    rw [List.length_append]
    show _ + (localHeaderBytes _ ++ _).length = _
    rw [List.length_append, localHeaderBytes_length]
    dsimp only
    omega

/-! ## XML escaping (source lines 44–51)

```
function escapeXml(unsafe) { return String(unsafe)
  .replace(/&/g, '&amp;').replace(/</g, '&lt;').replace(/>/g, '&gt;')
  .replace(/"/g, '&quot;').replace(/'/g, '&apos;'); }
```

Each `.replace(/X/g, r)` with a single-character pattern maps every
occurrence of that character to `r` and leaves everything else unchanged;
on character lists that is exactly `replaceChar` below. -/

/-- Global single-character replacement, the meaning of one
`.replace(/c/g, r)` stage. -/
def replaceChar (t : Char) (r : List Char) (l : List Char) : List Char :=
  l.flatMap (fun c => if c = t then r else [c])

/-- The five replace stages of `escapeXml`, in source order (`&` first). -/
def escapeXml (l : List Char) : List Char :=
  replaceChar '\'' ['&', 'a', 'p', 'o', 's', ';']
    (replaceChar '"' ['&', 'q', 'u', 'o', 't', ';']
      (replaceChar '>' ['&', 'g', 't', ';']
        (replaceChar '<' ['&', 'l', 't', ';']
          (replaceChar '&' ['&', 'a', 'm', 'p', ';'] l))))

/-- `escapeXml` on strings. -/
def escapeXmlStr (s : String) : String := ⟨escapeXml s.data⟩

/-- Per-character expansion: what `escapeXml` does to one character. -/
def encChar (c : Char) : List Char :=
  if c = '&' then ['&', 'a', 'm', 'p', ';']
  else if c = '<' then ['&', 'l', 't', ';']
  else if c = '>' then ['&', 'g', 't', ';']
  else if c = '"' then ['&', 'q', 'u', 'o', 't', ';']
  else if c = '\'' then ['&', 'a', 'p', 'o', 's', ';']
  else [c]

theorem replaceChar_append (t : Char) (r : List Char) (a b : List Char) :
    replaceChar t r (a ++ b) = replaceChar t r a ++ replaceChar t r b := by
  simp [replaceChar]

theorem escapeXml_append (a b : List Char) :
    escapeXml (a ++ b) = escapeXml a ++ escapeXml b := by
  simp [escapeXml, replaceChar_append]

theorem escapeXml_singleton (c : Char) : escapeXml [c] = encChar c := by
  by_cases h1 : c = '&'
  · subst h1; rfl
  by_cases h2 : c = '<'
  · subst h2; rfl
  by_cases h3 : c = '>'
  · subst h3; rfl
  by_cases h4 : c = '"'
  · subst h4; rfl
  by_cases h5 : c = '\''
  · subst h5; rfl
  · simp [escapeXml, replaceChar, encChar, h1, h2, h3, h4, h5]

/-- Because `&` is replaced first, the whole chain acts character by
character. -/
theorem escapeXml_eq_flatMap (l : List Char) :
    escapeXml l = l.flatMap encChar := by
  induction l with
  | nil => rfl
  | cons c rest ih =>
    have h : (c :: rest : List Char) = [c] ++ rest := rfl
    rw [h, escapeXml_append, escapeXml_singleton, ih]
    simp

/-- Applying the inverse entity substitutions: one pass that turns each of
the five entities back into its character and keeps every other character. -/
def unescapeXml : List Char → List Char
  | [] => []
  | c :: rest =>
    if c = '&' then
      if rest.take 4 = ['a', 'm', 'p', ';'] then
        '&' :: unescapeXml (rest.drop 4)
      else if rest.take 3 = ['l', 't', ';'] then
        '<' :: unescapeXml (rest.drop 3)
      else if rest.take 3 = ['g', 't', ';'] then
        '>' :: unescapeXml (rest.drop 3)
      else if rest.take 5 = ['q', 'u', 'o', 't', ';'] then
        '"' :: unescapeXml (rest.drop 5)
      else if rest.take 5 = ['a', 'p', 'o', 's', ';'] then
        '\'' :: unescapeXml (rest.drop 5)
      else c :: unescapeXml rest
    else c :: unescapeXml rest
termination_by l => l.length
decreasing_by
  all_goals simp only [List.length_drop, List.length_cons]
  all_goals omega

/-- Well-formedness of escaped output: no raw `< > " '`, and every `&`
starts one of the five entities. -/
def xmlSafeB : List Char → Bool
  | [] => true
  | c :: rest =>
    if c = '&' then
      if rest.take 4 = ['a', 'm', 'p', ';'] then xmlSafeB (rest.drop 4)
      else if rest.take 3 = ['l', 't', ';'] then xmlSafeB (rest.drop 3)
      else if rest.take 3 = ['g', 't', ';'] then xmlSafeB (rest.drop 3)
      else if rest.take 5 = ['q', 'u', 'o', 't', ';'] then xmlSafeB (rest.drop 5)
      else if rest.take 5 = ['a', 'p', 'o', 's', ';'] then xmlSafeB (rest.drop 5)
      else false
    else
      decide (c ≠ '<' ∧ c ≠ '>' ∧ c ≠ '"' ∧ c ≠ '\'') && xmlSafeB rest
termination_by l => l.length
decreasing_by
  all_goals simp only [List.length_drop, List.length_cons]
  all_goals omega

theorem unescapeXml_amp (r : List Char) :
    unescapeXml ('&' :: 'a' :: 'm' :: 'p' :: ';' :: r) =
      '&' :: unescapeXml r := by
  rw [unescapeXml]
  rfl

theorem unescapeXml_lt (r : List Char) :
    unescapeXml ('&' :: 'l' :: 't' :: ';' :: r) = '<' :: unescapeXml r := by
  rw [unescapeXml]
  rfl

theorem unescapeXml_gt (r : List Char) :
    unescapeXml ('&' :: 'g' :: 't' :: ';' :: r) = '>' :: unescapeXml r := by
  rw [unescapeXml]
  rfl

theorem unescapeXml_quot (r : List Char) :
    unescapeXml ('&' :: 'q' :: 'u' :: 'o' :: 't' :: ';' :: r) =
      '"' :: unescapeXml r := by
  rw [unescapeXml]
  rfl

theorem unescapeXml_apos (r : List Char) :
    unescapeXml ('&' :: 'a' :: 'p' :: 'o' :: 's' :: ';' :: r) =
      '\'' :: unescapeXml r := by
  rw [unescapeXml]
  rfl

theorem unescapeXml_cons_ne (c : Char) (h : ¬c = '&') (r : List Char) :
    unescapeXml (c :: r) = c :: unescapeXml r := by
  rw [unescapeXml, if_neg h]

theorem escapeXml_cons (c : Char) (l : List Char) :
    escapeXml (c :: l) = encChar c ++ escapeXml l := by
  rw [escapeXml_eq_flatMap, escapeXml_eq_flatMap]
  simp

theorem xmlSafeB_amp (r : List Char) :
    xmlSafeB ('&' :: 'a' :: 'm' :: 'p' :: ';' :: r) = xmlSafeB r := by
  rw [xmlSafeB]
  rfl

theorem xmlSafeB_lt (r : List Char) :
    xmlSafeB ('&' :: 'l' :: 't' :: ';' :: r) = xmlSafeB r := by
  rw [xmlSafeB]
  rfl

theorem xmlSafeB_gt (r : List Char) :
    xmlSafeB ('&' :: 'g' :: 't' :: ';' :: r) = xmlSafeB r := by
  rw [xmlSafeB]
  rfl

theorem xmlSafeB_quot (r : List Char) :
    xmlSafeB ('&' :: 'q' :: 'u' :: 'o' :: 't' :: ';' :: r) = xmlSafeB r := by
  rw [xmlSafeB]
  rfl

theorem xmlSafeB_apos (r : List Char) :
    xmlSafeB ('&' :: 'a' :: 'p' :: 'o' :: 's' :: ';' :: r) = xmlSafeB r := by
  rw [xmlSafeB]
  rfl

theorem xmlSafeB_cons_ne (c : Char) (h1 : ¬c = '&') (h2 : ¬c = '<')
    (h3 : ¬c = '>') (h4 : ¬c = '"') (h5 : ¬c = '\'') (r : List Char) :
    xmlSafeB (c :: r) = xmlSafeB r := by
  rw [xmlSafeB, if_neg h1]
  simp [h2, h3, h4, h5]

/-- Escaped output is well-formed: no raw special characters, `&` only as
the start of one of the five entities. -/
theorem xmlSafeB_escapeXml (l : List Char) : xmlSafeB (escapeXml l) = true := by
  induction l with
  | nil =>
    rw [show escapeXml ([] : List Char) = [] from rfl, xmlSafeB]
  | cons c rest ih =>
    rw [escapeXml_cons]
    by_cases h1 : c = '&'
    · subst h1
      show xmlSafeB ('&' :: 'a' :: 'm' :: 'p' :: ';' :: escapeXml rest) = true
      rw [xmlSafeB_amp, ih]
    by_cases h2 : c = '<'
    · subst h2
      show xmlSafeB ('&' :: 'l' :: 't' :: ';' :: escapeXml rest) = true
      rw [xmlSafeB_lt, ih]
    by_cases h3 : c = '>'
    · subst h3
      show xmlSafeB ('&' :: 'g' :: 't' :: ';' :: escapeXml rest) = true
      rw [xmlSafeB_gt, ih]
    by_cases h4 : c = '"'
    · subst h4
      show xmlSafeB ('&' :: 'q' :: 'u' :: 'o' :: 't' :: ';' :: escapeXml rest) =
        true
      rw [xmlSafeB_quot, ih]
    by_cases h5 : c = '\''
    · subst h5
      show xmlSafeB ('&' :: 'a' :: 'p' :: 'o' :: 's' :: ';' :: escapeXml rest) =
        true
      rw [xmlSafeB_apos, ih]
    · show xmlSafeB (encChar c ++ escapeXml rest) = true
      rw [show encChar c = [c] from by simp [encChar, h1, h2, h3, h4, h5]]
      show xmlSafeB (c :: escapeXml rest) = true
      rw [xmlSafeB_cons_ne c h1 h2 h3 h4 h5, ih]

/-- Decoding inverts encoding exactly. -/
theorem unescapeXml_escapeXml (l : List Char) :
    unescapeXml (escapeXml l) = l := by
  induction l with
  | nil =>
    rw [show escapeXml ([] : List Char) = [] from rfl, unescapeXml]
  | cons c rest ih =>
    rw [escapeXml_cons]
    by_cases h1 : c = '&'
    · subst h1
      show unescapeXml ('&' :: 'a' :: 'm' :: 'p' :: ';' :: escapeXml rest) = _
      rw [unescapeXml_amp, ih]
    by_cases h2 : c = '<'
    · subst h2
      show unescapeXml ('&' :: 'l' :: 't' :: ';' :: escapeXml rest) = _
      rw [unescapeXml_lt, ih]
    by_cases h3 : c = '>'
    · subst h3
      show unescapeXml ('&' :: 'g' :: 't' :: ';' :: escapeXml rest) = _
      rw [unescapeXml_gt, ih]
    by_cases h4 : c = '"'
    · subst h4
      show unescapeXml ('&' :: 'q' :: 'u' :: 'o' :: 't' :: ';' :: escapeXml rest)
        = _
      rw [unescapeXml_quot, ih]
    by_cases h5 : c = '\''
    · subst h5
      show unescapeXml ('&' :: 'a' :: 'p' :: 'o' :: 's' :: ';' :: escapeXml rest)
        = _
      rw [unescapeXml_apos, ih]
    · show unescapeXml (encChar c ++ escapeXml rest) = _
      rw [show encChar c = [c] from by simp [encChar, h1, h2, h3, h4, h5]]
      show unescapeXml (c :: escapeXml rest) = _
      rw [unescapeXml_cons_ne c h1, ih]

/-- C10: `escapeXml` output never contains a raw `< > " '` and contains `&`
only as the start of one of the five XML entities; applying the inverse
entity substitutions recovers the input exactly, and therefore escaping is
injective.  A sample evaluation on a small string is included. -/
theorem escapeXml_safe_roundtrip_injective :
    (∀ l : List Char, xmlSafeB (escapeXml l) = true) ∧
    (∀ l : List Char, unescapeXml (escapeXml l) = l) ∧
    (∀ l1 l2 : List Char, escapeXml l1 = escapeXml l2 → l1 = l2) ∧
    escapeXmlStr "a<b & \"c'\"" = "a&lt;b &amp; &quot;c&apos;&quot;" := by
  refine ⟨xmlSafeB_escapeXml, unescapeXml_escapeXml, ?_, by decide⟩
  intro l1 l2 h
  have h1 := unescapeXml_escapeXml l1
  rw [h, unescapeXml_escapeXml l2] at h1
  exact h1.symm

/-- Witness for C10 at concrete inputs. -/
theorem escapeXml_safe_roundtrip_injective_witness :
    unescapeXml (escapeXml ('x' :: '&' :: '<' :: [])) =
      'x' :: '&' :: '<' :: [] ∧
    ('a' :: '"' :: [] : List Char) = 'a' :: '"' :: [] :=
  ⟨escapeXml_safe_roundtrip_injective.2.1 ('x' :: '&' :: '<' :: []),
    escapeXml_safe_roundtrip_injective.2.2.1 ('a' :: '"' :: [])
      ('a' :: '"' :: []) rfl⟩

/-! ## slugify (source lines 36–42)

```
function slugify(str) { return String(str).toLowerCase()
  .replace(/[^a-z0-9]+/g, '-').replace(/^-+|-+$/g, '')
  .substring(0, 60) || 'chapter'; }
```

`toLowerCase` is modelled by `Char.toLower` (the ASCII case mapping, which
is all these claims exercise); the global replace of every run of
non-`[a-z0-9]` characters by one hyphen is the scan `collapseGo`, whose
flag records whether the scan is inside a run already replaced; stripping
the anchored hyphen runs is a `dropWhile` at either end. -/

/-- The characters the regex class `[a-z0-9]` matches. -/
def isSlugChar (c : Char) : Bool :=
  ('a' ≤ c && c ≤ 'z') || ('0' ≤ c && c ≤ '9')

/-- One pass of `replace(/[^a-z0-9]+/g, '-')`. -/
def collapseGo : Bool → List Char → List Char
  | _, [] => []
  | inRun, c :: cs =>
    if isSlugChar c then c :: collapseGo false cs
    else if inRun then collapseGo true cs
    else '-' :: collapseGo true cs

/-- `replace(/^-+|-+$/g, '')`: drop the leading and the trailing hyphen
run. -/
def stripHyphens (l : List Char) : List Char :=
  (((l.dropWhile (fun c => c = '-')).reverse.dropWhile
    (fun c => c = '-')).reverse)

/-- `slugify` from the source: lowercase, collapse, strip, truncate to 60,
fall back to `"chapter"` when empty. -/
def slugify (s : String) : String :=
  let truncated :=
    (stripHyphens (collapseGo false (s.data.map Char.toLower))).take 60
  if truncated = [] then "chapter" else ⟨truncated⟩

/-- The relation "not two adjacent hyphens". -/
def noTwoHyphens (l : List Char) : Prop :=
  List.Chain' (fun a b => ¬(a = '-' ∧ b = '-')) l

theorem collapseGo_mem (l : List Char) : ∀ (flag : Bool),
    ∀ c ∈ collapseGo flag l, isSlugChar c = true ∨ c = '-' := by
  induction l with
  | nil => intro flag c hc; exact absurd hc (List.not_mem_nil c)
  | cons x cs ih =>
    intro flag c hc
    by_cases hx : isSlugChar x
    · rw [collapseGo, if_pos hx] at hc
      rcases List.mem_cons.mp hc with h | h
      · exact Or.inl (h ▸ hx)
      · exact ih false c h
    · rw [collapseGo, if_neg hx] at hc
      cases flag with
      | true => exact ih true c (by simpa using hc)
      | false =>
        rcases List.mem_cons.mp (by simpa using hc) with h | h
        · exact Or.inr h
        · exact ih true c h

theorem collapseGo_chain (l : List Char) :
    (noTwoHyphens (collapseGo true l) ∧
      (collapseGo true l).head? ≠ some '-') ∧
    noTwoHyphens (collapseGo false l) := by
  induction l with
  | nil => exact ⟨⟨List.chain'_nil, by simp [collapseGo]⟩, List.chain'_nil⟩
  | cons x cs ih =>
    obtain ⟨⟨hct, hht⟩, hcf⟩ := ih
    by_cases hx : isSlugChar x
    · have hxne : ¬x = '-' := by
        intro h
        rw [h] at hx
        exact absurd hx (by decide)
      constructor
      · constructor
        · rw [collapseGo, if_pos hx]
          exact List.chain'_cons'.mpr ⟨fun y _ => fun ⟨ha, _⟩ => hxne ha, hcf⟩
        · rw [collapseGo, if_pos hx]
          simp [hxne]
      · rw [collapseGo, if_pos hx]
        exact List.chain'_cons'.mpr ⟨fun y _ => fun ⟨ha, _⟩ => hxne ha, hcf⟩
    · constructor
      · constructor
        · rw [collapseGo, if_neg hx]
          simpa using hct
        · rw [collapseGo, if_neg hx]
          simpa using hht
      · rw [collapseGo, if_neg hx]
        simp only [if_neg, Bool.false_eq_true, ite_false]
        refine List.chain'_cons'.mpr ⟨?_, hct⟩
        intro y hy hcon
        have h1 : (collapseGo true cs).head? = some y := Option.mem_def.mp hy
        rw [hcon.2] at h1
        exact hht h1

theorem head?_append_left {A t : List Char} {c : Char}
    (h : A.head? = some c) : (A ++ t).head? = some c := by
  cases A with
  | nil => exact absurd h (by simp)
  | cons x xs => simpa using h

theorem head?_dropWhile (p : Char → Bool) (l : List Char) :
    ∀ c, ((l.dropWhile p).head? = some c) → p c = false := by
  induction l with
  | nil => intro c h; exact absurd h (by simp)
  | cons x xs ih =>
    intro c h
    rw [List.dropWhile_cons] at h
    by_cases hx : p x = true
    · rw [if_pos hx] at h
      exact ih c h
    · rw [if_neg hx] at h
      have hcx : x = c := by simpa using h
      rw [← hcx]
      exact Bool.not_eq_true _ ▸ (by simpa using hx)

theorem trailing_strip_decomp (p : Char → Bool) (h : List Char) :
    ∃ t, h = (h.reverse.dropWhile p).reverse ++ t := by
  refine ⟨(h.reverse.takeWhile p).reverse, ?_⟩
  conv_lhs => rw [← List.reverse_reverse h,
    ← List.takeWhile_append_dropWhile p h.reverse]
  rw [List.reverse_append]

theorem chain_of_append_left {R : Char → Char → Prop} {A B : List Char}
    (h : List.Chain' R (A ++ B)) : List.Chain' R A :=
  (List.chain'_append.mp h).1

theorem chain_of_append_right {R : Char → Char → Prop} {A B : List Char}
    (h : List.Chain' R (A ++ B)) : List.Chain' R B :=
  (List.chain'_append.mp h).2.1

theorem noTwoHyphens_reverse {l : List Char} (h : noTwoHyphens l) :
    noTwoHyphens l.reverse := by
  rw [noTwoHyphens, List.chain'_reverse]
  exact h.imp (fun a b hab hba => hab ⟨hba.2, hba.1⟩)

theorem stripHyphens_chain {l : List Char} (h : noTwoHyphens l) :
    noTwoHyphens (stripHyphens l) := by
  have h1 : noTwoHyphens (l.dropWhile (fun c => c = '-')) := by
    have := List.takeWhile_append_dropWhile (fun c => c = '-') l
    exact chain_of_append_right (by rw [this]; exact h)
  have h2 := noTwoHyphens_reverse h1
  have h3 : noTwoHyphens
      ((l.dropWhile (fun c => c = '-')).reverse.dropWhile (fun c => c = '-')) := by
    have := List.takeWhile_append_dropWhile (fun c => c = '-')
      (l.dropWhile (fun c => c = '-')).reverse
    exact chain_of_append_right (by rw [this]; exact h2)
  exact noTwoHyphens_reverse h3

/-- C8: `slugify` is a pure total function; its output is at most 60
characters, never empty, made only of lowercase alphanumerics and single
(non-adjacent, never leading) hyphens, with the literal fallback `chapter`
for titles that collapse to nothing; identical titles give identical slugs.
Concrete evaluations exercise the lowercase/collapse/strip/fallback
behaviour. -/
theorem slugify_contract :
    (∀ s t : String, s = t → slugify s = slugify t) ∧
    (∀ s : String, (slugify s).data.length ≤ 60) ∧
    (∀ s : String, slugify s ≠ "") ∧
    (∀ s : String, ∀ c ∈ (slugify s).data, isSlugChar c = true ∨ c = '-') ∧
    (∀ s : String, (slugify s).data.head? ≠ some '-') ∧
    (∀ s : String, noTwoHyphens (slugify s).data) ∧
    slugify "" = "chapter" ∧ slugify "?!" = "chapter" ∧
    slugify "Hello, World!" = "hello-world" ∧ slugify "--x--" = "x" := by
  have hmem : ∀ s : String, ∀ c ∈
      ((stripHyphens (collapseGo false (s.data.map Char.toLower))).take 60),
      isSlugChar c = true ∨ c = '-' := by
    intro s c hc
    set L := s.data.map Char.toLower with hL
    set C := collapseGo false L with hC
    set S := stripHyphens C with hS
    have hcS : c ∈ S := (List.take_append_drop 60 S) ▸ List.mem_append_left _ hc
    obtain ⟨t2, ht2⟩ := trailing_strip_decomp (fun c => c = '-')
      (C.dropWhile (fun c => c = '-'))
    have hcd : c ∈ C.dropWhile (fun c => c = '-') := by
      rw [ht2]
      exact List.mem_append_left _ hcS
    have hcC : c ∈ C :=
      (List.takeWhile_append_dropWhile (fun c => c = '-') C) ▸
        List.mem_append_right _ hcd
    exact collapseGo_mem L false c hcC
  have hhead : ∀ s : String,
      ((stripHyphens (collapseGo false (s.data.map Char.toLower))).take
        60).head? ≠ some '-' := by
    intro s h
    set L := s.data.map Char.toLower with hL
    set C := collapseGo false L with hC
    set S := stripHyphens C with hS
    have hheadS : S.head? = some '-' := by
      cases hSc : S with
      | nil => rw [hSc] at h; exact absurd h (by simp)
      | cons x xs =>
        rw [hSc] at h
        have hx : x = '-' := by simpa using h
        rw [hx]
        rfl
    obtain ⟨t2, ht2⟩ := trailing_strip_decomp (fun c => c = '-')
      (C.dropWhile (fun c => c = '-'))
    have hd : (C.dropWhile (fun c => c = '-')).head? = some '-' := by
      rw [ht2]
      exact head?_append_left hheadS
    have := head?_dropWhile (fun c => c = '-') C '-' hd
    simp at this
  have hchain : ∀ s : String, noTwoHyphens
      ((stripHyphens (collapseGo false (s.data.map Char.toLower))).take 60) := by
    intro s
    set L := s.data.map Char.toLower with hL
    set C := collapseGo false L with hC
    have hCchain : noTwoHyphens C := (collapseGo_chain L).2
    have hSchain := stripHyphens_chain hCchain
    exact chain_of_append_left
      ((List.take_append_drop 60 (stripHyphens C)) ▸ hSchain)
  refine ⟨fun s t h => h ▸ rfl, ?_, ?_, ?_, ?_, ?_,
    by decide, by decide, by decide, by decide⟩
  · intro s
    show (slugify s).data.length ≤ 60
    rw [slugify]
    by_cases hTe : (stripHyphens (collapseGo false
        (s.data.map Char.toLower))).take 60 = []
    · rw [if_pos hTe]; decide
    · rw [if_neg hTe]
      exact List.length_take_le 60 _
  · intro s
    rw [slugify]
    by_cases hTe : (stripHyphens (collapseGo false
        (s.data.map Char.toLower))).take 60 = []
    · rw [if_pos hTe]; decide
    · rw [if_neg hTe]
      intro hcon
      exact hTe (congrArg String.data hcon)
  · intro s
    rw [slugify]
    by_cases hTe : (stripHyphens (collapseGo false
        (s.data.map Char.toLower))).take 60 = []
    · rw [if_pos hTe]; decide
    · rw [if_neg hTe]
      exact hmem s
  · intro s
    rw [slugify]
    by_cases hTe : (stripHyphens (collapseGo false
        (s.data.map Char.toLower))).take 60 = []
    · rw [if_pos hTe]; decide
    · rw [if_neg hTe]
      exact hhead s
  · intro s
    rw [slugify]
    by_cases hTe : (stripHyphens (collapseGo false
        (s.data.map Char.toLower))).take 60 = []
    · rw [if_pos hTe]
      show List.Chain' (fun a b => ¬(a = '-' ∧ b = '-'))
        ['c', 'h', 'a', 'p', 't', 'e', 'r']
      simp only [List.chain'_cons, List.chain'_singleton, and_true]
      refine ⟨?_, ?_, ?_, ?_, ?_, ?_⟩ <;> decide
    · rw [if_neg hTe]
      exact hchain s

/-- Witness for C8 at a concrete pair of equal titles. -/
theorem slugify_contract_witness :
    slugify "My Chapter" = slugify "My Chapter" ∧
    slugify "My Chapter" ≠ "" :=
  ⟨slugify_contract.1 "My Chapter" "My Chapter" rfl,
    slugify_contract.2.2.1 "My Chapter"⟩

/-! ## Chapter splitter (source lines 259–284)

`extractChaptersAndCss` loads the HTML twice with cheerio: once to collect
the contents of embedded `<style>` elements, once (wrapped in a root `div`)
to walk the `h1.chapter` boundaries.  The parse result is embedded as data:
`styles` is the list of `.html()` contents of the style elements in document
order (an absent/null content is the empty string, which the source's
`if (css)` guard skips), and `nodes` is the list of root-level children of
the wrapped document.  A `chapterHeading text outer` node is an element
matching `h1.chapter`, carrying its `.text()` and its `$.html(el)`
serialization; an `other outer` node is any other sibling with its
serialization.  `nextUntil('h1.chapter')` is then the run of following
siblings up to the next heading. -/

/-- The default stylesheet `DEFAULT_CSS` (source lines 13–26). -/
def DEFAULT_CSS : String :=
  "\n.chapter-content table \x7b\n  background: #004b7a;\n  margin: 10px auto;\n  width: 90%;\n  border: none;\n  box-shadow: 1px 1px 1px rgba(0,0,0,.75);\n  border-collapse: separate;\n  border-spacing: 2px;\n\x7d\n.chapter-content table td \x7b\n  color: #ccc;\n\x7d\n"

/-- One chapter as produced by the splitter. -/
structure Chapter where
  title : String
  html : String
deriving DecidableEq, Inhabited

/-- A root-level node of the loaded document. -/
inductive HNode where
  | chapterHeading (text outer : String)
  | other (outer : String)
deriving DecidableEq

/-- The node's serialization, `$.html(node)`. -/
def HNode.outer : HNode → String
  | .chapterHeading _ o => o
  | .other o => o

/-- Whether the node matches the boundary selector `h1.chapter`. -/
def isHeading : HNode → Bool
  | .chapterHeading _ _ => true
  | .other _ => false

/-- Number of boundary nodes, the number of matches of `$('h1.chapter')`. -/
def countHeadings : List HNode → Nat
  | [] => 0
  | .chapterHeading _ _ :: r => countHeadings r + 1
  | .other _ :: r => countHeadings r

/-- `$(el).nextUntil('h1.chapter')` serialized and joined with `''`: the
outer HTML of the following siblings up to (not including) the next
boundary. -/
def chapterBody : List HNode → String
  | [] => ""
  | .chapterHeading _ _ :: _ => ""
  | .other o :: r => o ++ chapterBody r

/-- JS whitespace stripped by `String.prototype.trim`. -/
def isWsChar (c : Char) : Bool :=
  c = ' ' || c = '\t' || c = '\n' || c = '\r' || c = '\x0b' || c = '\x0c'

/-- JS `String.prototype.trim`: strips leading and trailing whitespace. -/
def jsTrim (s : String) : String :=
  ⟨((s.data.dropWhile isWsChar).reverse.dropWhile isWsChar).reverse⟩

/-- `$(el).text().trim() || `Chapter ${i+1}``  (`i` is the 0-based match
index). -/
def chapterTitle (i : Nat) (txt : String) : String :=
  if jsTrim txt = "" then "Chapter " ++ toString (i + 1) else jsTrim txt

/-- The `$('h1.chapter').each` walk: `i` is the current match index. -/
def extractFrom : Nat → List HNode → List Chapter
  | _, [] => []
  | i, .chapterHeading txt outer :: rest =>
    ⟨chapterTitle i txt, outer ++ "\n" ++ chapterBody rest⟩ ::
      extractFrom (i + 1) rest
  | i, .other _ :: rest => extractFrom i rest

/-- The style-collection loop: `if (css) cssCollected += css + '\n'`. -/
def collectCss (styles : List String) : String :=
  styles.foldl (fun acc css => if css = "" then acc else acc ++ css ++ "\n") ""

/-- `extractChaptersAndCss` (source lines 259–284). -/
def extractChaptersAndCss (html : String) (styles : List String)
    (nodes : List HNode) : List Chapter × String :=
  let cssCollected := collectCss styles
  let css := jsTrim (if cssCollected = "" then DEFAULT_CSS else cssCollected)
  let chapters := extractFrom 0 nodes
  (if chapters = [] then [⟨"Chapter 1", html⟩] else chapters, css)

/-! ## Document assembler (source lines 173–257 and 286–323) -/

/-- `buildXhtml` (source lines 173–186). -/
def buildXhtml (title bodyHtml : String) : String :=
  "<?xml version=\"1.0\" encoding=\"utf-8\"?>\n<!DOCTYPE html>\n<html xmlns=\"http://www.w3.org/1999/xhtml\">\n<head>\n  <meta http-equiv=\"Content-Type\" content=\"text/html; charset=utf-8\" />\n  <title>" ++
    escapeXmlStr title ++
    "</title>\n  <link rel=\"stylesheet\" type=\"text/css\" href=\"style.css\" />\n</head>\n<body>\n" ++
    bodyHtml ++ "\n</body>\n</html>"

/-- A chapter with its derived file name and rendered XHTML document. -/
structure ChapterFile where
  title : String
  filename : String
  xhtml : String
deriving DecidableEq, Inhabited

/-- `chapter-${i+1}-${slugify(c.title)}.xhtml` (source line 297). -/
def chapterFilename (i : Nat) (title : String) : String :=
  "chapter-" ++ toString (i + 1) ++ "-" ++ slugify title ++ ".xhtml"

/-- The `chaptersIn.map` of source lines 296–300. -/
def chapterFilesOf (chaptersIn : List Chapter) : List ChapterFile :=
  chaptersIn.enum.map fun p =>
    ⟨p.2.title, chapterFilename p.1 p.2.title, buildXhtml p.2.title p.2.html⟩

/-- The per-chapter manifest items of `makeOpf` (source lines 199–203). -/
def manifestChapterItems (chapters : List ChapterFile) : List String :=
  chapters.enum.map fun p =>
    "<item id=\"chapter-" ++ toString (p.1 + 1) ++ "\" href=\"" ++
      p.2.filename ++ "\" media-type=\"application/xhtml+xml\"/>"

/-- The spine items of `makeOpf` (source lines 206–208). -/
def spineChapterItems (chapters : List ChapterFile) : List String :=
  chapters.enum.map fun p =>
    "<itemref idref=\"chapter-" ++ toString (p.1 + 1) ++ "\" />"

/-- `makeOpf` (source lines 188–225). -/
def makeOpf (uuid title author language : String)
    (chapters : List ChapterFile) : String :=
  let manifestItems := String.intercalate "\n    "
    (["<item id=\"ncx\" href=\"toc.ncx\" media-type=\"application/x-dtbncx+xml\"/>",
      "<item id=\"style\" href=\"style.css\" media-type=\"text/css\"/>"] ++
      manifestChapterItems chapters)
  let spineItems := String.intercalate "\n    " (spineChapterItems chapters)
  "<?xml version=\"1.0\" encoding=\"utf-8\"?>\n<package xmlns=\"http://www.idpf.org/2007/opf\" unique-identifier=\"BookId\" version=\"2.0\">\n  <metadata xmlns:dc=\"http://purl.org/dc/elements/1.1/\" xmlns:opf=\"http://www.idpf.org/2007/opf\">\n    <dc:title>" ++
    escapeXmlStr title ++ "</dc:title>\n    <dc:creator opf:role=\"aut\">" ++
    escapeXmlStr author ++ "</dc:creator>\n    <dc:language>" ++
    escapeXmlStr language ++
    "</dc:language>\n    <dc:identifier id=\"BookId\">urn:uuid:" ++ uuid ++
    "</dc:identifier>\n  </metadata>\n  <manifest>\n    " ++ manifestItems ++
    "\n  </manifest>\n  <spine toc=\"ncx\">\n    " ++ spineItems ++
    "\n  </spine>\n</package>"

/-- One `navPoint` of `makeNcx` (source lines 233–240). -/
def ncxNavPoint (p : Nat × ChapterFile) : String :=
  "    <navPoint id=\"navPoint-" ++ toString (p.1 + 1) ++ "\" playOrder=\"" ++
    toString (p.1 + 1) ++ "\">\n      <navLabel><text>" ++
    escapeXmlStr (if p.2.title = "" then "Chapter " ++ toString (p.1 + 1)
      else p.2.title) ++
    "</text></navLabel>\n      <content src=\"" ++ p.2.filename ++
    "\" />\n    </navPoint>"

/-- The navPoint list of `makeNcx`. -/
def ncxNavPoints (chapters : List ChapterFile) : List String :=
  chapters.enum.map ncxNavPoint

/-- `makeNcx` (source lines 227–257). -/
def makeNcx (uuid title author : String) (chapters : List ChapterFile) :
    String :=
  let navPoints := String.intercalate "\n" (ncxNavPoints chapters)
  "<?xml version=\"1.0\" encoding=\"utf-8\"?>\n<!DOCTYPE ncx PUBLIC \"-//NISO//DTD ncx 2005-1//EN\" \"http://www.daisy.org/z3986/2005/ncx-2005-1.dtd\">\n<ncx xmlns=\"http://www.daisy.org/z3986/2005/ncx/\" version=\"2005-1\">\n  <head>\n    <meta name=\"dtb:uid\" content=\"urn:uuid:" ++
    uuid ++
    "\"/>\n    <meta name=\"dtb:depth\" content=\"1\"/>\n    <meta name=\"dtb:totalPageCount\" content=\"0\"/>\n    <meta name=\"dtb:maxPageNumber\" content=\"0\"/>\n  </head>\n  <docTitle><text>" ++
    escapeXmlStr title ++ "</text></docTitle>\n  <docAuthor><text>" ++
    escapeXmlStr author ++ "</text></docAuthor>\n  <navMap>\n" ++ navPoints ++
    "\n  </navMap>\n</ncx>"

/-- The fixed container descriptor (source lines 304–309). -/
def containerXml : String :=
  "<?xml version=\"1.0\"?>\n<container version=\"1.0\" xmlns=\"urn:oasis:names:tc:opendocument:xmlns:container\">\n  <rootfiles>\n    <rootfile full-path=\"OEBPS/content.opf\" media-type=\"application/oebps-package+xml\"/>\n  </rootfiles>\n</container>"

/-- JavaScript's falsy-default `a || b` on an optional string: `undefined`
and the empty string both fall through to the default. -/
def orDefault (v : Option String) (d : String) : String :=
  match v with
  | none => d
  | some s => if s = "" then d else s

/-- The `addFile` calls `writeEpubBufferFromParts` issues (source lines
311–320), in order: `mimetype` stored, then container, stylesheet, package
document, navigation document and the chapter files, all deflated.  The
`uuidv4()` draw is the `uuid` parameter — the only nondeterministic input
besides the clock — and `time`/`date` are the DOS-packed stamps
`msDosDateTime(new Date())` yields during the build. -/
def epubAddOps (chaptersIn : List Chapter) (css : String)
    (titleOpt authorOpt langOpt : Option String) (uuid : String)
    (time date : Nat) : List AddOp :=
  let language := orDefault langOpt "en"
  let author := orDefault authorOpt "Unknown"
  let inferredTitle :=
    orDefault titleOpt (orDefault (chaptersIn.head?.map Chapter.title) "Book")
  let chapterFiles := chapterFilesOf chaptersIn
  let opf := makeOpf uuid inferredTitle author language chapterFiles
  let ncx := makeNcx uuid inferredTitle author chapterFiles
  [⟨"mimetype", utf8Bytes "application/epub+zip", false, time, date⟩,
    ⟨"META-INF/container.xml", utf8Bytes containerXml, true, time, date⟩,
    ⟨"OEBPS/style.css", utf8Bytes css, true, time, date⟩,
    ⟨"OEBPS/content.opf", utf8Bytes opf, true, time, date⟩,
    ⟨"OEBPS/toc.ncx", utf8Bytes ncx, true, time, date⟩] ++
  chapterFiles.map fun ch =>
    ⟨"OEBPS/" ++ ch.filename, utf8Bytes ch.xhtml, true, time, date⟩

/-- `writeEpubBufferFromParts` (source lines 286–323), returning the final
archive buffer. -/
def writeEpubBufferFromParts (deflate : List Nat → List Nat)
    (chaptersIn : List Chapter) (css : String)
    (titleOpt authorOpt langOpt : Option String) (uuid : String)
    (time date : Nat) : List Nat :=
  ((runOps deflate
    (epubAddOps chaptersIn css titleOpt authorOpt langOpt uuid time date)).build).1

/-! ## Splitter lemmas and claims C5–C7 -/

theorem extractFrom_length : ∀ (l : List HNode) (i : Nat),
    (extractFrom i l).length = countHeadings l := by
  intro l
  induction l with
  | nil => intro i; rfl
  | cons x r ih =>
    intro i
    cases x with
    | chapterHeading txt outer =>
      show (extractFrom i (HNode.chapterHeading txt outer :: r)).length = _
      rw [extractFrom, countHeadings]
      simp [ih (i + 1)]
    | other o =>
      show (extractFrom i (HNode.other o :: r)).length = _
      rw [extractFrom, countHeadings]
      exact ih i

theorem countHeadings_append : ∀ (a b : List HNode),
    countHeadings (a ++ b) = countHeadings a + countHeadings b := by
  intro a b
  induction a with
  | nil => simp [countHeadings]
  | cons x r ih =>
    cases x with
    | chapterHeading txt outer =>
      show countHeadings (HNode.chapterHeading txt outer :: (r ++ b)) = _
      rw [countHeadings, countHeadings, ih]
      omega
    | other o =>
      show countHeadings (HNode.other o :: (r ++ b)) = _
      rw [countHeadings, countHeadings, ih]

theorem extractFrom_nil_of_none : ∀ (l : List HNode) (i : Nat),
    countHeadings l = 0 → extractFrom i l = [] := by
  intro l
  induction l with
  | nil => intro i _; rfl
  | cons x r ih =>
    intro i h
    cases x with
    | chapterHeading txt outer =>
      rw [countHeadings] at h
      omega
    | other o =>
      rw [countHeadings] at h
      rw [extractFrom]
      exact ih i h

theorem string_foldl_append (l : List String) : ∀ init : String,
    List.foldl (fun r s => r ++ s) init l =
      init ++ List.foldl (fun r s => r ++ s) "" l := by
  induction l with
  | nil => intro init; rw [List.foldl_nil, List.foldl_nil, String.append_empty]
  | cons x xs ih =>
    intro init
    rw [List.foldl_cons, List.foldl_cons, ih (init ++ x), ih ("" ++ x),
      String.empty_append, String.append_assoc]

theorem string_join_cons (a : String) (l : List String) :
    String.join (a :: l) = a ++ String.join l := by
  show List.foldl (fun r s => r ++ s) ("" ++ a) l = _
  rw [String.empty_append, string_foldl_append]
  rfl

theorem chapterBody_eq : ∀ l : List HNode,
    chapterBody l =
      String.join ((l.takeWhile fun n => !isHeading n).map HNode.outer) := by
  intro l
  induction l with
  | nil => rfl
  | cons x r ih =>
    cases x with
    | chapterHeading txt outer =>
      show chapterBody (HNode.chapterHeading txt outer :: r) = _
      rw [chapterBody, List.takeWhile_cons]
      simp [isHeading, String.join]
    | other o =>
      show chapterBody (HNode.other o :: r) = _
      rw [chapterBody, List.takeWhile_cons]
      simp only [isHeading, Bool.not_false, if_pos, ite_true, List.map_cons]
      rw [string_join_cons, ih]
      rfl

theorem extractFrom_boundary : ∀ (pre : List HNode) (i : Nat)
    (txt outer : String) (post : List HNode),
    (extractFrom i (pre ++ HNode.chapterHeading txt outer :: post)).get?
        (countHeadings pre) =
      some ⟨chapterTitle (i + countHeadings pre) txt,
        outer ++ "\n" ++ chapterBody post⟩ := by
  intro pre
  induction pre with
  | nil =>
    intro i txt outer post
    rw [List.nil_append, extractFrom]
    rw [show countHeadings ([] : List HNode) = 0 from rfl]
    rw [List.get?_cons_zero, Nat.add_zero]
  | cons x r ih =>
    intro i txt outer post
    cases x with
    | chapterHeading t2 o2 =>
      rw [List.cons_append, extractFrom, countHeadings]
      rw [List.get?_cons_succ]
      rw [ih (i + 1) txt outer post]
      rw [show i + 1 + countHeadings r = i + (countHeadings r + 1) from by omega]
    | other o =>
      rw [List.cons_append, extractFrom, countHeadings]
      exact ih i txt outer post

/-- The documented two-chapter example input, as parsed: two `h1.chapter`
boundaries each followed by one paragraph sibling. -/
def exampleNodes : List HNode :=
  [HNode.chapterHeading "Intro" "<h1 class=\"chapter\">Intro</h1>",
    HNode.other "<p>Hello</p>",
    HNode.chapterHeading "End" "<h1 class=\"chapter\">End</h1>",
    HNode.other "<p>Bye</p>"]

/-- The raw markup of the example input. -/
def exampleHtml : String :=
  "<h1 class=\"chapter\">Intro</h1><p>Hello</p><h1 class=\"chapter\">End</h1><p>Bye</p>"

/-- C5: with `n ≥ 1` boundaries the splitter returns exactly `n` chapters in
document order; the chapter at index `k` (the number of boundaries before
it) has the boundary's trimmed text as title (`Chapter k+1` when empty) and
the boundary's markup plus all following sibling markup up to the next
boundary as content.  On the documented example this yields exactly the
chapters `Intro`/`End`, and manifest, spine and navigation list exactly
those two entries, with `playOrder` 1 and 2. -/
theorem chapter_split_contract :
    (∀ (nodes : List HNode) (html : String) (styles : List String),
      1 ≤ countHeadings nodes →
      ((extractChaptersAndCss html styles nodes).1).length =
        countHeadings nodes) ∧
    (∀ (pre : List HNode) (txt outer : String) (post : List HNode)
      (html : String) (styles : List String),
      ((extractChaptersAndCss html styles
          (pre ++ HNode.chapterHeading txt outer :: post)).1).get?
          (countHeadings pre) =
        some ⟨chapterTitle (countHeadings pre) txt,
          outer ++ "\n" ++
            String.join ((post.takeWhile fun n => !isHeading n).map
              HNode.outer)⟩) ∧
    (extractChaptersAndCss exampleHtml [] exampleNodes).1 =
      [⟨"Intro", "<h1 class=\"chapter\">Intro</h1>\n<p>Hello</p>"⟩,
        ⟨"End", "<h1 class=\"chapter\">End</h1>\n<p>Bye</p>"⟩] ∧
    manifestChapterItems
        (chapterFilesOf (extractChaptersAndCss exampleHtml [] exampleNodes).1) =
      ["<item id=\"chapter-1\" href=\"chapter-1-intro.xhtml\" media-type=\"application/xhtml+xml\"/>",
        "<item id=\"chapter-2\" href=\"chapter-2-end.xhtml\" media-type=\"application/xhtml+xml\"/>"] ∧
    spineChapterItems
        (chapterFilesOf (extractChaptersAndCss exampleHtml [] exampleNodes).1) =
      ["<itemref idref=\"chapter-1\" />", "<itemref idref=\"chapter-2\" />"] ∧
    ncxNavPoints
        (chapterFilesOf (extractChaptersAndCss exampleHtml [] exampleNodes).1) =
      ["    <navPoint id=\"navPoint-1\" playOrder=\"1\">\n      <navLabel><text>Intro</text></navLabel>\n      <content src=\"chapter-1-intro.xhtml\" />\n    </navPoint>",
        "    <navPoint id=\"navPoint-2\" playOrder=\"2\">\n      <navLabel><text>End</text></navLabel>\n      <content src=\"chapter-2-end.xhtml\" />\n    </navPoint>"] := by
  refine ⟨?_, ?_, by decide, by decide, by decide, by decide⟩
  · intro nodes html styles h
    have hne : ¬extractFrom 0 nodes = [] := by
      intro h0
      have hlen := extractFrom_length nodes 0
      rw [h0] at hlen
      rw [← hlen] at h
      exact absurd h (by simp)
    show (if extractFrom 0 nodes = [] then [⟨"Chapter 1", html⟩]
      else extractFrom 0 nodes).length = countHeadings nodes
    rw [if_neg hne]
    exact extractFrom_length nodes 0
  · intro pre txt outer post html styles
    have hcount : countHeadings
        (pre ++ HNode.chapterHeading txt outer :: post) =
        countHeadings pre + (countHeadings post + 1) := by
      rw [countHeadings_append, countHeadings]
    have hne : ¬extractFrom 0
        (pre ++ HNode.chapterHeading txt outer :: post) = [] := by
      intro h0
      have hlen := extractFrom_length
        (pre ++ HNode.chapterHeading txt outer :: post) 0
      rw [h0, hcount, List.length_nil] at hlen
      omega
    show (if extractFrom 0 (pre ++ HNode.chapterHeading txt outer :: post) = []
        then [⟨"Chapter 1", html⟩]
        else extractFrom 0
          (pre ++ HNode.chapterHeading txt outer :: post)).get?
        (countHeadings pre) = _
    rw [if_neg hne]
    have hb := extractFrom_boundary pre 0 txt outer post
    rw [Nat.zero_add, chapterBody_eq post] at hb
    exact hb

/-- Witness for C5 on the documented example. -/
theorem chapter_split_contract_witness :
    1 ≤ countHeadings exampleNodes ∧
    ((extractChaptersAndCss exampleHtml [] exampleNodes).1).length =
      countHeadings exampleNodes :=
  ⟨by decide,
    chapter_split_contract.1 exampleNodes exampleHtml [] (by decide)⟩

/-- C6: with no boundary node the splitter recovers locally (the function is
total, no error path exists) and yields one chapter titled `Chapter 1` whose
content is the whole unmodified input. -/
theorem no_boundary_single_whole_chapter (html : String)
    (styles : List String) (nodes : List HNode)
    (h : countHeadings nodes = 0) :
    (extractChaptersAndCss html styles nodes).1 = [⟨"Chapter 1", html⟩] := by
  have h0 := extractFrom_nil_of_none nodes 0 h
  show (if extractFrom 0 nodes = [] then [⟨"Chapter 1", html⟩]
    else extractFrom 0 nodes) = [⟨"Chapter 1", html⟩]
  rw [if_pos h0]

/-- Witness for C6 on a one-paragraph input. -/
theorem no_boundary_single_whole_chapter_witness :
    countHeadings [HNode.other "<p>x</p>"] = 0 ∧
    (extractChaptersAndCss "<p>x</p>" [] [HNode.other "<p>x</p>"]).1 =
      [⟨"Chapter 1", "<p>x</p>"⟩] :=
  ⟨by decide,
    no_boundary_single_whole_chapter "<p>x</p>" [] [HNode.other "<p>x</p>"]
      (by decide)⟩

/-- C7: with no embedded `<style>` element the collected css is empty, so the
emitted `OEBPS/style.css` payload is exactly the trimmed default stylesheet
(`DEFAULT_CSS` trimmed, the fixed `.chapter-content table` block). -/
theorem no_style_gets_default_css (html : String) (nodes : List HNode)
    (titleOpt authorOpt langOpt : Option String) (uuid : String) (t d : Nat) :
    (extractChaptersAndCss html [] nodes).2 = jsTrim DEFAULT_CSS ∧
    (epubAddOps (extractChaptersAndCss html [] nodes).1
        (extractChaptersAndCss html [] nodes).2 titleOpt authorOpt langOpt
        uuid t d).get? 2 =
      some ⟨"OEBPS/style.css", utf8Bytes (jsTrim DEFAULT_CSS), true, t, d⟩ :=
  ⟨rfl, rfl⟩

/-- C4: `crc32` is a pure function of the byte list that agrees with the
standard reflected CRC-32 (polynomial `0xEDB88320`, all-ones initial
accumulator, final complement) computed bit by bit without the table, and it
meets the two published vectors: the empty input yields `0` and the ASCII
bytes of `"123456789"` yield `0xCBF43926`. -/
theorem crc32_matches_standard :
    (∀ buf : List Nat, (∀ b ∈ buf, b < 256) → crc32 buf = crc32Bitwise buf) ∧
    crc32 [] = 0 ∧
    crc32 (utf8Bytes "123456789") = 0xCBF43926 :=
  ⟨fun buf h => crc32_eq_crc32Bitwise buf h, by decide, by decide⟩

/-- Witness for C4 on the bytes of `"abc"`. -/
theorem crc32_matches_standard_witness :
    (∀ b ∈ [97, 98, 99], b < 256) ∧
    crc32 [97, 98, 99] = crc32Bitwise [97, 98, 99] :=
  ⟨by decide, crc32_matches_standard.1 [97, 98, 99] (by decide)⟩

/-- C9 (amended): the build is a deterministic pure function of its inputs
once the generated identifier and the clock-derived DOS time and date are
made explicit: two runs with equal chapters, css, metadata, identifier and
timestamp produce byte-identical buffers. -/
theorem epub_build_deterministic (deflate : List Nat → List Nat)
    (chaptersIn : List Chapter) (css : String)
    (titleOpt authorOpt langOpt : Option String) (t d : Nat)
    (u1 u2 : String) (h : u1 = u2) :
    writeEpubBufferFromParts deflate chaptersIn css titleOpt authorOpt
        langOpt u1 t d =
      writeEpubBufferFromParts deflate chaptersIn css titleOpt authorOpt
        langOpt u2 t d := by
  rw [h]

/-- Witness for the amended C9 statement. -/
theorem epub_build_deterministic_witness :
    writeEpubBufferFromParts (fun l => l) [] "x" none none none "u" 0 0 =
      writeEpubBufferFromParts (fun l => l) [] "x" none none none "u" 0 0 :=
  epub_build_deterministic (fun l => l) [] "x" none none none 0 0 "u" "u" rfl

/-- A fixed sample identifier. -/
def uuidA : String := "00000000-0000-4000-8000-000000000000"

/-- A second sample identifier of the same length. -/
def uuidB : String := "11111111-1111-4111-9111-111111111111"

/-- The builder state after adding all parts with identifier `uuidA`
(identity compressor, zero timestamp, no chapters, css `"x"`). -/
def epubZa : ZipBuilder :=
  runOps (fun l => l) (epubAddOps [] "x" none none none uuidA 0 0)

/-- The same builder state with identifier `uuidB`. -/
def epubZb : ZipBuilder :=
  runOps (fun l => l) (epubAddOps [] "x" none none none uuidB 0 0)


/-- The CRC accumulator fold of `crc32`, before the final complement. -/
def crcFold (a : Nat) (buf : List Nat) : Nat :=
  buf.foldl (fun c b => CRC_TABLE.getD ((c ^^^ b) % 256) 0 ^^^ c / 256) a

/-- Rewriting `crc32` in terms of the accumulator fold. -/
theorem crc32_eq_crcFold (buf : List Nat) :
    crc32 buf = crcFold 4294967295 buf ^^^ 4294967295 := rfl

/-- The accumulator fold splits over list append. -/
theorem crcFold_append (a : Nat) (l1 l2 : List Nat) :
    crcFold a (l1 ++ l2) = crcFold (crcFold a l1) l2 := by
  simp [crcFold]

/-- UTF-8 encoding distributes over string append. -/
theorem utf8Bytes_append (s t : String) :
    utf8Bytes (s ++ t) = utf8Bytes s ++ utf8Bytes t := by
  simp [utf8Bytes, String.data_append]

set_option maxRecDepth 1000000 in
/-- The package document built with `uuidA`, as a literal. -/
theorem opf_uuidA_val :
    makeOpf uuidA "Book" "Unknown" "en" (chapterFilesOf []) =
      "<?xml version=\"1.0\" encoding=\"utf-8\"?>\n<package xmlns=\"http://www.idpf.org/2007/opf\" unique-identifier=\"BookId\" version=\"2.0\">\n  <metadata xmlns:dc=\"h" ++
      "ttp://purl.org/dc/elements/1.1/\" xmlns:opf=\"http://www.idpf.org/2007/opf\">\n    <dc:title>Book</dc:title>\n    <dc:creator opf:role=\"aut\">Unknown</dc:cr" ++
      "eator>\n    <dc:language>en</dc:language>\n    <dc:identifier id=\"BookId\">urn:uuid:00000000-0000-4000-8000-000000000000</dc:identifier>\n  </metadata>\n  " ++
      "<manifest>\n    <item id=\"ncx\" href=\"toc.ncx\" media-type=\"application/x-dtbncx+xml\"/>\n    <item id=\"style\" href=\"style.css\" media-type=\"text/css\"/>\n  <" ++
      "/manifest>\n  <spine toc=\"ncx\">\n    \n  </spine>\n</package>" := by decide

set_option maxRecDepth 1000000 in
/-- CRC-32 of the `uuidA` package document. -/
theorem opf_uuidA_crc :
    crc32 (utf8Bytes (makeOpf uuidA "Book" "Unknown" "en" (chapterFilesOf []))) = 315054712 := by
  rw [opf_uuidA_val, crc32_eq_crcFold]
  rw [utf8Bytes_append, utf8Bytes_append, utf8Bytes_append, utf8Bytes_append]
  rw [crcFold_append, crcFold_append, crcFold_append, crcFold_append]
  rw [show crcFold 4294967295 (utf8Bytes "<?xml version=\"1.0\" encoding=\"utf-8\"?>\n<package xmlns=\"http://www.idpf.org/2007/opf\" unique-identifier=\"BookId\" version=\"2.0\">\n  <metadata xmlns:dc=\"h") = 1580959868 from by decide]
  rw [show crcFold 1580959868 (utf8Bytes "ttp://purl.org/dc/elements/1.1/\" xmlns:opf=\"http://www.idpf.org/2007/opf\">\n    <dc:title>Book</dc:title>\n    <dc:creator opf:role=\"aut\">Unknown</dc:cr") = 586984394 from by decide]
  rw [show crcFold 586984394 (utf8Bytes "eator>\n    <dc:language>en</dc:language>\n    <dc:identifier id=\"BookId\">urn:uuid:00000000-0000-4000-8000-000000000000</dc:identifier>\n  </metadata>\n  ") = 3680890381 from by decide]
  rw [show crcFold 3680890381 (utf8Bytes "<manifest>\n    <item id=\"ncx\" href=\"toc.ncx\" media-type=\"application/x-dtbncx+xml\"/>\n    <item id=\"style\" href=\"style.css\" media-type=\"text/css\"/>\n  <") = 4006260684 from by decide]
  rw [show crcFold 4006260684 (utf8Bytes "/manifest>\n  <spine toc=\"ncx\">\n    \n  </spine>\n</package>") = 3979912583 from by decide]
  decide

set_option maxRecDepth 1000000 in
/-- The package document built with `uuidB`, as a literal. -/
theorem opf_uuidB_val :
    makeOpf uuidB "Book" "Unknown" "en" (chapterFilesOf []) =
      "<?xml version=\"1.0\" encoding=\"utf-8\"?>\n<package xmlns=\"http://www.idpf.org/2007/opf\" unique-identifier=\"BookId\" version=\"2.0\">\n  <metadata xmlns:dc=\"h" ++
      "ttp://purl.org/dc/elements/1.1/\" xmlns:opf=\"http://www.idpf.org/2007/opf\">\n    <dc:title>Book</dc:title>\n    <dc:creator opf:role=\"aut\">Unknown</dc:cr" ++
      "eator>\n    <dc:language>en</dc:language>\n    <dc:identifier id=\"BookId\">urn:uuid:11111111-1111-4111-9111-111111111111</dc:identifier>\n  </metadata>\n  " ++
      "<manifest>\n    <item id=\"ncx\" href=\"toc.ncx\" media-type=\"application/x-dtbncx+xml\"/>\n    <item id=\"style\" href=\"style.css\" media-type=\"text/css\"/>\n  <" ++
      "/manifest>\n  <spine toc=\"ncx\">\n    \n  </spine>\n</package>" := by decide

set_option maxRecDepth 1000000 in
/-- CRC-32 of the `uuidB` package document. -/
theorem opf_uuidB_crc :
    crc32 (utf8Bytes (makeOpf uuidB "Book" "Unknown" "en" (chapterFilesOf []))) = 252425125 := by
  rw [opf_uuidB_val, crc32_eq_crcFold]
  rw [utf8Bytes_append, utf8Bytes_append, utf8Bytes_append, utf8Bytes_append]
  rw [crcFold_append, crcFold_append, crcFold_append, crcFold_append]
  rw [show crcFold 4294967295 (utf8Bytes "<?xml version=\"1.0\" encoding=\"utf-8\"?>\n<package xmlns=\"http://www.idpf.org/2007/opf\" unique-identifier=\"BookId\" version=\"2.0\">\n  <metadata xmlns:dc=\"h") = 1580959868 from by decide]
  rw [show crcFold 1580959868 (utf8Bytes "ttp://purl.org/dc/elements/1.1/\" xmlns:opf=\"http://www.idpf.org/2007/opf\">\n    <dc:title>Book</dc:title>\n    <dc:creator opf:role=\"aut\">Unknown</dc:cr") = 586984394 from by decide]
  rw [show crcFold 586984394 (utf8Bytes "eator>\n    <dc:language>en</dc:language>\n    <dc:identifier id=\"BookId\">urn:uuid:11111111-1111-4111-9111-111111111111</dc:identifier>\n  </metadata>\n  ") = 3946497793 from by decide]
  rw [show crcFold 3946497793 (utf8Bytes "<manifest>\n    <item id=\"ncx\" href=\"toc.ncx\" media-type=\"application/x-dtbncx+xml\"/>\n    <item id=\"style\" href=\"style.css\" media-type=\"text/css\"/>\n  <") = 1970562636 from by decide]
  rw [show crcFold 1970562636 (utf8Bytes "/manifest>\n  <spine toc=\"ncx\">\n    \n  </spine>\n</package>") = 4042542170 from by decide]
  decide

/-- The recorded CRC fields are the CRCs of the submitted payloads, in
insertion order. -/
theorem runOps_crcs_foldl (deflate : List Nat → List Nat) (ops : List AddOp) :
    ∀ z : ZipBuilder,
      ((ops.foldl
        (fun z op =>
          z.addFile deflate op.name op.data op.compress op.time op.date)
        z).files).map ZipEntry.crc =
      z.files.map ZipEntry.crc ++ ops.map (fun op => crc32 op.data) := by
  induction ops with
  | nil => intro z; simp
  | cons op rest ih =>
    intro z
    rw [List.foldl_cons, ih]
    simp [ZipBuilder.addFile]

/-- The recorded CRCs starting from the empty builder. -/
theorem runOps_crcs (deflate : List Nat → List Nat) (ops : List AddOp) :
    (runOps deflate ops).files.map ZipEntry.crc =
      ops.map (fun op => crc32 op.data) := by
  have h := runOps_crcs_foldl deflate ops ZipBuilder.empty
  simpa [ZipBuilder.empty] using h

/-- Reading the fourth element through a mapped five-element list. -/
theorem map_get5 {α β : Type} (f : α → β) (l1 : List α) (a b c d e : β)
    (h : l1.map f = [a, b, c, d, e]) (h1 : 3 < l1.length) :
    f (l1.get ⟨3, h1⟩) = d := by
  have h3 : 3 < (l1.map f).length := by rw [List.length_map]; exact h1
  have h2 : (l1.map f).get ⟨3, h3⟩ = d := by
    rw [List.get_eq_getElem, List.getElem_of_eq h h3]
    rfl
  rw [List.get_eq_getElem, List.getElem_map] at h2
  rw [List.get_eq_getElem]
  exact h2

/-- In the built archive, the four bytes at `offset+14` of any entry are its
stored CRC field, the entry's CRC reduced modulo `2^32`. -/
theorem build_crc_field (z : ZipBuilder) (hz : ZipInv z) (i : Nat)
    (hi : i < z.files.length) :
    readU32 z.build.1 ((z.files.get ⟨i, hi⟩).offset + 14) =
      (z.files.get ⟨i, hi⟩).crc % 4294967296 := by
  obtain ⟨tail, ht⟩ := build_local_slice z hz i hi
  have h2 := local_crc (z.files.get ⟨i, hi⟩) tail
  rw [← ht, readU32_add] at h2
  exact h2

set_option maxRecDepth 1000000 in
/-- The submitted parts for the `uuidA` build, as an explicit list. -/
theorem epubOpsA_eq : epubAddOps [] "x" none none none uuidA 0 0 =
    [⟨"mimetype", utf8Bytes "application/epub+zip", false, 0, 0⟩,
     ⟨"META-INF/container.xml", utf8Bytes containerXml, true, 0, 0⟩,
     ⟨"OEBPS/style.css", utf8Bytes "x", true, 0, 0⟩,
     ⟨"OEBPS/content.opf",
       utf8Bytes (makeOpf uuidA "Book" "Unknown" "en" (chapterFilesOf [])),
       true, 0, 0⟩,
     ⟨"OEBPS/toc.ncx",
       utf8Bytes (makeNcx uuidA "Book" "Unknown" (chapterFilesOf [])),
       true, 0, 0⟩] := rfl

set_option maxRecDepth 1000000 in
/-- The submitted parts for the `uuidB` build, as an explicit list. -/
theorem epubOpsB_eq : epubAddOps [] "x" none none none uuidB 0 0 =
    [⟨"mimetype", utf8Bytes "application/epub+zip", false, 0, 0⟩,
     ⟨"META-INF/container.xml", utf8Bytes containerXml, true, 0, 0⟩,
     ⟨"OEBPS/style.css", utf8Bytes "x", true, 0, 0⟩,
     ⟨"OEBPS/content.opf",
       utf8Bytes (makeOpf uuidB "Book" "Unknown" "en" (chapterFilesOf [])),
       true, 0, 0⟩,
     ⟨"OEBPS/toc.ncx",
       utf8Bytes (makeNcx uuidB "Book" "Unknown" (chapterFilesOf [])),
       true, 0, 0⟩] := rfl

/-- The payload CRCs of the `uuidA` parts. -/
theorem epubOpsA_map : (epubAddOps [] "x" none none none uuidA 0 0).map
      (fun op => crc32 op.data) =
    [crc32 (utf8Bytes "application/epub+zip"),
     crc32 (utf8Bytes containerXml),
     crc32 (utf8Bytes "x"),
     crc32 (utf8Bytes (makeOpf uuidA "Book" "Unknown" "en" (chapterFilesOf []))),
     crc32 (utf8Bytes (makeNcx uuidA "Book" "Unknown" (chapterFilesOf [])))] := by
  rw [epubOpsA_eq]
  simp only [List.map_cons, List.map_nil]

/-- The payload CRCs of the `uuidB` parts. -/
theorem epubOpsB_map : (epubAddOps [] "x" none none none uuidB 0 0).map
      (fun op => crc32 op.data) =
    [crc32 (utf8Bytes "application/epub+zip"),
     crc32 (utf8Bytes containerXml),
     crc32 (utf8Bytes "x"),
     crc32 (utf8Bytes (makeOpf uuidB "Book" "Unknown" "en" (chapterFilesOf []))),
     crc32 (utf8Bytes (makeNcx uuidB "Book" "Unknown" (chapterFilesOf [])))] := by
  rw [epubOpsB_eq]
  simp only [List.map_cons, List.map_nil]

set_option maxRecDepth 1000000 in
/-- Counterexample to C9 as stated: two builds that differ only in the
generated identifier are NOT byte-identical outside the identifier text.
The package document `OEBPS/content.opf` embeds the identifier, so its
CRC-32 changes, and the 4-byte CRC field of that entry's local file header
(bytes `offset+14 .. offset+17`, fixed ZIP header structure containing no
document text) differs between the two archive buffers.  The stored CRC is
computed over the uncompressed payload, so this holds for any compressor;
the identity compressor with zero timestamps instantiates it concretely. -/
theorem epub_uuid_changes_crc_field_bytes :
    epubZa.files.map ZipEntry.name = epubZb.files.map ZipEntry.name ∧
    (epubZa.files.getD 3 default).name = "OEBPS/content.opf" ∧
    (epubZa.files.getD 3 default).offset =
      (epubZb.files.getD 3 default).offset ∧
    readU32 epubZa.build.1 ((epubZa.files.getD 3 default).offset + 14) ≠
      readU32 epubZb.build.1 ((epubZb.files.getD 3 default).offset + 14) := by
  have hlenA : epubZa.files.length = 5 := by
    have h := congrArg List.length (runOps_names (fun l => l)
      (epubAddOps [] "x" none none none uuidA 0 0))
    simp only [List.length_map] at h
    exact h.trans (by rfl)
  have hlenB : epubZb.files.length = 5 := by
    have h := congrArg List.length (runOps_names (fun l => l)
      (epubAddOps [] "x" none none none uuidB 0 0))
    simp only [List.length_map] at h
    exact h.trans (by rfl)
  have h3a : 3 < epubZa.files.length := by omega
  have h3b : 3 < epubZb.files.length := by omega
  have hgA : epubZa.files.getD 3 default = epubZa.files.get ⟨3, h3a⟩ := by
    rw [List.getD_eq_getElem _ _ h3a, List.get_eq_getElem]
  have hgB : epubZb.files.getD 3 default = epubZb.files.get ⟨3, h3b⟩ := by
    rw [List.getD_eq_getElem _ _ h3b, List.get_eq_getElem]
  refine ⟨by decide, by decide, by decide, ?_⟩
  rw [hgA, hgB]
  rw [build_crc_field epubZa
    (zipInv_runOps (fun l => l) (epubAddOps [] "x" none none none uuidA 0 0))
    3 h3a]
  rw [build_crc_field epubZb
    (zipInv_runOps (fun l => l) (epubAddOps [] "x" none none none uuidB 0 0))
    3 h3b]
  have hmA : epubZa.files.map ZipEntry.crc =
      [crc32 (utf8Bytes "application/epub+zip"),
       crc32 (utf8Bytes containerXml),
       crc32 (utf8Bytes "x"),
       crc32 (utf8Bytes (makeOpf uuidA "Book" "Unknown" "en"
         (chapterFilesOf []))),
       crc32 (utf8Bytes (makeNcx uuidA "Book" "Unknown"
         (chapterFilesOf [])))] :=
    (runOps_crcs (fun l => l)
      (epubAddOps [] "x" none none none uuidA 0 0)).trans epubOpsA_map
  have hmB : epubZb.files.map ZipEntry.crc =
      [crc32 (utf8Bytes "application/epub+zip"),
       crc32 (utf8Bytes containerXml),
       crc32 (utf8Bytes "x"),
       crc32 (utf8Bytes (makeOpf uuidB "Book" "Unknown" "en"
         (chapterFilesOf []))),
       crc32 (utf8Bytes (makeNcx uuidB "Book" "Unknown"
         (chapterFilesOf [])))] :=
    (runOps_crcs (fun l => l)
      (epubAddOps [] "x" none none none uuidB 0 0)).trans epubOpsB_map
  have hcA := map_get5 ZipEntry.crc epubZa.files _ _ _ _ _ hmA h3a
  have hcB := map_get5 ZipEntry.crc epubZb.files _ _ _ _ _ hmB h3b
  rw [hcA, hcB, opf_uuidA_crc, opf_uuidB_crc]
  decide
